import Mathlib

/-!
Shallow embedding of the Hunty contract suite (hunty-core, reward-manager,
nft-reward) for checking its natural-language specification.

Conventions of the embedding:
* Soroban `Address` values are modelled as `Nat` identifiers.
* Soroban `String` values are modelled as `List Nat` (their byte sequences);
  `String::len` is the list length.
* `u32`/`u64` become `Nat`; `i128` becomes `Int` (amounts never overflow the
  128-bit range in any scenario considered here, so no modular wrap is taken).
* Persistent storage maps become total functions with `Option`/default reads,
  exactly mirroring `storage.rs` (`get(..).unwrap_or(..)`).
* External collaborators (the fungible-token `transfer` and the NFT `mint`)
  are modelled by an `ExtCalls` record giving each nested call's outcome.
  Per the Soroban host semantics (and spec section 5: nested calls are
  observed as a full success or a full failure, never an intermediate
  state), a nested call that fails aborts the invocation frame, and the
  frame's storage writes are discarded.  The frame semantics of an entry
  point is a function into `Except`; the observable semantics at the
  invocation boundary (`*_invoke`) restores the caller-visible state on
  any failure, which is exactly what the host's frame rollback does.
-/

/-! ## reward-manager: errors (errors.rs) -/

inductive RewardErrorCode where
  | NotInitialized
  | InsufficientPool
  | AlreadyDistributed
  | TransferFailed
  | InvalidAmount
  | InvalidConfig
  | NftMintFailed
  deriving DecidableEq, Repr

/-- A failed reward-manager invocation: either a returned contract error
code, or a trap propagated from a nested call (token transfer / NFT mint). -/
inductive RMFailure where
  | code (e : RewardErrorCode)
  | trap
  deriving DecidableEq, Repr

/-! ## reward-manager: types (types.rs) -/

/-- `RewardConfig` of reward-manager/src/types.rs. -/
structure RMRewardConfig where
  xlm_amount : Option Int
  nft_contract : Option Nat
  nft_title : List Nat
  nft_description : List Nat
  nft_image_uri : List Nat
  nft_hunt_title : List Nat
  nft_rarity : Nat
  nft_tier : Nat
  deriving DecidableEq, Repr

/-- `RewardConfig::has_xlm`: true if XLM rewards are configured. -/
def RMRewardConfig.has_xlm (c : RMRewardConfig) : Bool :=
  (c.xlm_amount.map (fun a => decide (a > 0))).getD false

/-- `RewardConfig::has_nft`: true if NFT rewards are configured. -/
def RMRewardConfig.has_nft (c : RMRewardConfig) : Bool :=
  c.nft_contract.isSome

/-- `RewardConfig::is_valid`: at least one reward type is configured. -/
def RMRewardConfig.is_valid (c : RMRewardConfig) : Bool :=
  c.has_xlm || c.has_nft

/-- `DistributionRecord` of reward-manager/src/types.rs. -/
structure DistributionRecord where
  xlm_amount : Int
  nft_id : Option Nat
  deriving DecidableEq, Repr

/-! ## reward-manager: storage (storage.rs)

The persistent keys XLMTKN, NFTADR, DIST, DREC, POOL become fields of one
state record; `get(..).unwrap_or(false)` / `unwrap_or(0)` become `getD`. -/

structure RMState where
  xlm_token : Option Nat
  nft_default : Option Nat
  distributed : Nat → Nat → Bool
  records : Nat → Nat → Option DistributionRecord
  pool : Nat → Int

/-- `Storage::set_pool_balance`. -/
def RMState.set_pool_balance (s : RMState) (hunt_id : Nat) (balance : Int) : RMState :=
  { s with pool := fun h => if h = hunt_id then balance else s.pool h }

/-- `Storage::set_distributed`. -/
def RMState.set_distributed (s : RMState) (hunt_id player : Nat) : RMState :=
  { s with distributed := fun h p =>
      if h = hunt_id && p = player then true else s.distributed h p }

/-- `Storage::set_distribution_record`. -/
def RMState.set_distribution_record (s : RMState) (hunt_id player : Nat)
    (r : DistributionRecord) : RMState :=
  { s with records := fun h p =>
      if h = hunt_id && p = player then some r else s.records h p }

/-- Outcomes of the external collaborator calls that a single
reward-distribution may perform.  `transfer_ok = false` models the token
contract trapping on `transfer`; `mint = none` models the NFT contract
trapping on `mint_reward_nft_from_map`, while `mint = some id` is a
successful mint returning `id`. -/
structure ExtCalls where
  transfer_ok : Bool
  mint : Option Nat
  deriving DecidableEq, Repr

/-! ## reward-manager: entry points (lib.rs) -/

/-- Frame semantics of `RewardManager::distribute_rewards`
(reward-manager/src/lib.rs lines 94-186).  Checks run in source order:
`is_valid`, double-distribution, then the XLM branch (amount, token
initialized, pool balance, external transfer, pool debit), then the NFT
branch (contract resolution, external mint), then the distributed marker
and the distribution record are written. -/
def distribute_rewards (ext : ExtCalls) (s : RMState) (hunt_id player : Nat)
    (cfg : RMRewardConfig) : Except RMFailure RMState :=
  if ¬ cfg.is_valid then .error (.code .InvalidConfig)
  else if s.distributed hunt_id player then .error (.code .AlreadyDistributed)
  else
    -- XLM branch: yields the state after a possible pool debit and the
    -- xlm_amount recorded (0 when no XLM reward).
    let xlmStep : Except RMFailure (RMState × Int) :=
      if cfg.has_xlm then
        let amount := cfg.xlm_amount.getD 0
        if amount ≤ 0 then .error (.code .InvalidAmount)
        else
          match s.xlm_token with
          | none => .error (.code .NotInitialized)
          | some _ =>
            let pool_balance := s.pool hunt_id
            if pool_balance < amount then .error (.code .InsufficientPool)
            else if ext.transfer_ok then
              .ok (s.set_pool_balance hunt_id (pool_balance - amount), amount)
            else .error .trap
      else .ok (s, 0)
    match xlmStep with
    | .error e => .error e
    | .ok (s1, xlm_amount) =>
      -- NFT branch: yields the state (unchanged here) and an optional NFT id.
      let nftStep : Except RMFailure (Option Nat) :=
        if cfg.has_nft then
          match cfg.nft_contract.orElse (fun _ => s1.nft_default) with
          | none => .error (.code .InvalidConfig)
          | some _ =>
            match ext.mint with
            | none => .error .trap
            | some nft_id => .ok (some nft_id)
        else .ok none
      match nftStep with
      | .error e => .error e
      | .ok nft_id =>
        let s2 := (s1.set_distributed hunt_id player).set_distribution_record
          hunt_id player { xlm_amount := xlm_amount, nft_id := nft_id }
        .ok s2

/-- Observable semantics of invoking `distribute_rewards`: on any failure
(returned error code or trap) the host discards the frame's writes, so the
caller-visible state is the pre-call state.  Returns the visible state and
`none` on success, `some failure` otherwise. -/
def distribute_rewards_invoke (ext : ExtCalls) (s : RMState) (hunt_id player : Nat)
    (cfg : RMRewardConfig) : RMState × Option RMFailure :=
  match distribute_rewards ext s hunt_id player cfg with
  | .ok s' => (s', none)
  | .error e => (s, some e)

/-- Frame semantics of `RewardManager::fund_reward_pool`
(reward-manager/src/lib.rs lines 44-74).  `transfer_ok` is the outcome of
the external token transfer from the funder to the contract. -/
def fund_reward_pool (transfer_ok : Bool) (s : RMState) (funder hunt_id : Nat)
    (amount : Int) : Except RMFailure RMState :=
  if amount ≤ 0 then .error (.code .InvalidAmount)
  else
    match s.xlm_token with
    | none => .error (.code .NotInitialized)
    | some _ =>
      if transfer_ok then
        let current := s.pool hunt_id
        .ok (s.set_pool_balance hunt_id (current + amount))
      else .error .trap
  -- `funder` authorizes the call; the authorization collaborator is assumed
  -- to grant it (spec section 6), and `funder` is otherwise only the
  -- transfer source.


/-- A sequence of `fund_reward_pool` calls with successful transfers,
threaded through `Except`; `none` when any call fails. -/
def fund_seq (s : RMState) (funder hunt_id : Nat) : List Int → Option RMState
  | [] => some s
  | a :: rest =>
    match fund_reward_pool true s funder hunt_id a with
    | .ok s' => fund_seq s' funder hunt_id rest
    | .error _ => none

/-! ## hunty-core: errors (errors.rs plus the codes used by lib.rs) -/

inductive HuntErrorCode where
  | HuntNotFound
  | ClueNotFound
  | InvalidHuntStatus
  | PlayerNotRegistered
  | ClueAlreadyCompleted
  | InvalidAnswer
  | HuntNotActive
  | Unauthorized
  | InsufficientRewardPool
  | DuplicateRegistration
  | InvalidTitle
  | InvalidDescription
  | InvalidQuestion
  | TooManyClues
  | NoCluesAdded
  | HuntNotCompleted
  | RewardAlreadyClaimed
  | NoRewardsConfigured
  | RewardDistributionFailed
  deriving DecidableEq, Repr

/-! ## hunty-core: data model

hunty-core/src/types.rs is not part of the provided sources; the structures
and helper methods below are reconstructed from the spec's data model
(spec sections 3 and 4.1/4.3), from how hunty-core/src/lib.rs uses them and
from hunty-core/src/test.rs assertions. -/

inductive HuntStatus where
  | Draft
  | Active
  | Completed
  | Cancelled
  deriving DecidableEq, Repr

/-- Modelled from the spec: `RewardConfig` embedded in Hunt (types.rs is
missing from src/).  Fields per spec section 3: fungible pool total,
NFT-enabled flag, optional NFT-issuer reference, maximum number of
winners, count of rewards already claimed. -/
structure RewardConfig where
  xlm_pool : Int
  nft_enabled : Bool
  nft_contract : Option Nat
  max_winners : Nat
  claimed_count : Nat
  deriving DecidableEq, Repr

/-- Modelled from the spec: `RewardConfig::new(xlm_pool, nft_enabled,
nft_contract, max_winners)` as used by create_hunt and the tests;
`claimed_count` starts at 0. -/
def RewardConfig.new (xlm_pool : Int) (nft_enabled : Bool)
    (nft_contract : Option Nat) (max_winners : Nat) : RewardConfig :=
  { xlm_pool := xlm_pool, nft_enabled := nft_enabled,
    nft_contract := nft_contract, max_winners := max_winners,
    claimed_count := 0 }

/-- Modelled from the spec: `reward_per_winner = pool_total / max_winners`
(integer division, truncated) when `max_winners > 0` (spec section 3);
`Int.tdiv` is Rust's truncating i128 division. -/
def RewardConfig.reward_per_winner (c : RewardConfig) : Int :=
  if c.max_winners = 0 then 0 else c.xlm_pool.tdiv (c.max_winners : Int)

/-- Modelled from the spec: clue record (types.rs is missing from src/);
fields per spec section 3. -/
structure Clue where
  clue_id : Nat
  question : List Nat
  answer_hash : List Nat
  points : Nat
  is_required : Bool
  deriving DecidableEq, Repr

/-- Modelled from the spec: per-(hunt, player) progress record (types.rs is
missing from src/); fields per spec section 3. -/
structure PlayerProgress where
  player : Nat
  hunt_id : Nat
  completed_clues : List Nat
  total_score : Nat
  is_completed : Bool
  completed_at : Nat
  reward_claimed : Bool
  registered_at : Nat
  deriving DecidableEq, Repr

/-- Modelled from the spec: `PlayerProgress::new` — created at
registration with empty completed set, zero score, flags cleared. -/
def PlayerProgress.new (player hunt_id registered_at : Nat) : PlayerProgress :=
  { player := player, hunt_id := hunt_id, completed_clues := [],
    total_score := 0, is_completed := false, completed_at := 0,
    reward_claimed := false, registered_at := registered_at }

/-- Modelled from the spec: membership of a clue id in the completed set. -/
def PlayerProgress.has_completed_clue (p : PlayerProgress) (clue_id : Nat) : Bool :=
  p.completed_clues.contains clue_id

/-- Modelled from the spec: `complete_clue` appends the clue id to the
completed set (insertion order = completion order) and adds its points to
the cumulative score. -/
def PlayerProgress.complete_clue (p : PlayerProgress) (clue_id points : Nat) :
    PlayerProgress :=
  { p with completed_clues := p.completed_clues ++ [clue_id],
           total_score := p.total_score + points }

structure Hunt where
  hunt_id : Nat
  creator : Nat
  title : List Nat
  description : List Nat
  status : HuntStatus
  created_at : Nat
  activated_at : Nat
  end_time : Nat
  reward_config : RewardConfig
  total_clues : Nat
  required_clues : Nat
  deriving DecidableEq, Repr

/-- Modelled from the spec: a hunt is "live" when its status is Active
and (end time is unset, i.e. 0, or current time < end time) — spec
sections 4.1 (`register_player`, `submit_answer`) and 3 (0 = unbounded). -/
def Hunt.is_active (h : Hunt) (now : Nat) : Bool :=
  h.status = HuntStatus.Active && (h.end_time = 0 || now < h.end_time)

/-- Modelled from the spec: remaining winner slots,
`claimed_count < max_winners` (spec section 4.3). -/
def Hunt.has_rewards_available (h : Hunt) : Bool :=
  h.reward_config.claimed_count < h.reward_config.max_winners

/-! ## hunty-core: storage state (storage.rs is missing from src/)

Modelled from the spec: the durable store keyed by (hunt id),
(hunt id, clue id), (hunt id, player) — spec section 6 — becomes one record
of total maps; the hunt-id counter and per-hunt clue list are explicit. -/

structure CoreState where
  next_id : Nat
  hunts : Nat → Option Hunt
  clues : Nat → List Clue
  progress : Nat → Nat → Option PlayerProgress
  registered : Nat → List Nat
  reward_manager : Option Nat

/-- `Storage::save_hunt`. -/
def CoreState.save_hunt (s : CoreState) (h : Hunt) : CoreState :=
  { s with hunts := fun i => if i = h.hunt_id then some h else s.hunts i }

/-- `Storage::save_player_progress`. -/
def CoreState.save_player_progress (s : CoreState) (p : PlayerProgress) : CoreState :=
  { s with progress := fun h pl =>
      if h = p.hunt_id && pl = p.player then some p else s.progress h pl }

/-- `Storage::get_clue`: lookup by clue id within the hunt's clue list. -/
def CoreState.get_clue (s : CoreState) (hunt_id clue_id : Nat) : Option Clue :=
  (s.clues hunt_id).find? (fun c => c.clue_id = clue_id)

/-- `Storage::get_clue_counter`: clue ids are sequential 1..N, so the
counter equals the number of clues added so far. -/
def CoreState.get_clue_counter (s : CoreState) (hunt_id : Nat) : Nat :=
  (s.clues hunt_id).length

/-- Modelled from the spec: `Storage::get_hunt_players` returns all
PlayerProgress records for a hunt (spec section 4.2). -/
def CoreState.get_hunt_players (s : CoreState) (hunt_id : Nat) : List PlayerProgress :=
  (s.registered hunt_id).filterMap (fun pl => s.progress hunt_id pl)

/-! ## hunty-core: answer normalization (lib.rs lines 215-250) -/

/-- `HuntyCore::is_ascii_space`: space, tab, LF, CR. -/
def is_ascii_space (b : Nat) : Bool :=
  b == 0x20 || b == 0x09 || b == 0x0a || b == 0x0d

/-- The in-place lowercasing step of normalize_and_hash_answer:
`if b >= b'A' && b <= b'Z' { b + (b'a' - b'A') }`. -/
def lower_byte (b : Nat) : Nat :=
  if 65 ≤ b && b ≤ 90 then b + 32 else b

/-- `HuntyCore::normalize_and_hash_answer` (lib.rs lines 215-250),
parameterized by the external `env.crypto().sha256` primitive.  The two
index loops advancing `start` past leading spaces and retracting `end`
past trailing spaces are the two `dropWhile`s below; the source then
lowercases `buf[start..end]` in place and hashes that slice.  Errors are
returned as the `HuntErrorCode` the callers map `HuntError::InvalidAnswer`
to. -/
def normalize_and_hash_answer (sha256 : List Nat → List Nat)
    (answer : List Nat) : Except HuntErrorCode (List Nat) :=
  let n := answer.length
  if n = 0 then .error .InvalidAnswer
  else if n > 256 then .error .InvalidAnswer
  else
    let afterStart := answer.dropWhile is_ascii_space
    let trimmed := (afterStart.reverse.dropWhile is_ascii_space).reverse
    if trimmed = [] then .error .InvalidAnswer
    else .ok (sha256 (trimmed.map lower_byte))

/-- The spec's normalization (spec section 4.1, "Answer normalization"):
trim leading/trailing ASCII whitespace, then lowercase ASCII letters.
Stated from the spec's words, to be compared with the source embedding. -/
def spec_normalize (answer : List Nat) : List Nat :=
  (((answer.dropWhile is_ascii_space).reverse.dropWhile is_ascii_space).reverse).map
    lower_byte

/-! ## hunty-core: lifecycle entry points (lib.rs)

The identity/authorization collaborator (`require_auth`) is external (spec
section 6); its proofs are assumed granted, as the in-repo tests do with
`mock_all_auths`.  Explicit `caller` equality checks of the source are kept. -/

/-- `HuntyCore::create_hunt` (lib.rs lines 43-113).  `_start_time` is
accepted and ignored exactly as in the source. -/
def create_hunt (s : CoreState) (creator : Nat) (title description : List Nat)
    (_start_time end_time : Option Nat) (now : Nat) :
    Except HuntErrorCode (CoreState × Nat) :=
  if title.length = 0 then .error .InvalidTitle
  else if title.length > 200 then .error .InvalidTitle
  else if description.length > 2000 then .error .InvalidDescription
  else
    let hunt_id := s.next_id
    let reward_config := RewardConfig.new 0 false none 0
    let hunt : Hunt :=
      { hunt_id := hunt_id, creator := creator, title := title,
        description := description, status := HuntStatus.Draft,
        created_at := now, activated_at := 0,
        end_time := end_time.getD 0, reward_config := reward_config,
        total_clues := 0, required_clues := 0 }
    .ok (({ s with next_id := s.next_id + 1 }).save_hunt hunt, hunt_id)

/-- `HuntyCore::add_clue` (lib.rs lines 136-184). -/
def add_clue (sha256 : List Nat → List Nat) (s : CoreState) (hunt_id : Nat)
    (question answer : List Nat) (points : Nat) (is_required : Bool) :
    Except HuntErrorCode (CoreState × Nat) :=
  match s.hunts hunt_id with
  | none => .error .HuntNotFound
  | some hunt =>
    if hunt.status ≠ HuntStatus.Draft then .error .InvalidHuntStatus
    else if s.get_clue_counter hunt_id ≥ 100 then .error .TooManyClues
    else if question.length = 0 || question.length > 2000 then .error .InvalidQuestion
    else
      match normalize_and_hash_answer sha256 answer with
      | .error e => .error e
      | .ok answer_hash =>
        let clue_id := (s.clues hunt_id).length + 1
        let clue : Clue :=
          { clue_id := clue_id, question := question,
            answer_hash := answer_hash, points := points,
            is_required := is_required }
        let s1 := { s with clues := fun h =>
          if h = hunt_id then s.clues h ++ [clue] else s.clues h }
        let s2 := s1.save_hunt { hunt with total_clues := hunt.total_clues + 1 }
        .ok (s2, clue_id)

/-- `HuntyCore::activate_hunt` (lib.rs lines 252-284). -/
def activate_hunt (s : CoreState) (hunt_id caller now : Nat) :
    Except HuntErrorCode CoreState :=
  match s.hunts hunt_id with
  | none => .error .HuntNotFound
  | some hunt =>
    if caller ≠ hunt.creator then .error .Unauthorized
    else if hunt.status ≠ HuntStatus.Draft then .error .InvalidHuntStatus
    else if hunt.total_clues = 0 then .error .NoCluesAdded
    else .ok (s.save_hunt
      { hunt with status := HuntStatus.Active, activated_at := now })

/-- `HuntyCore::deactivate_hunt` (lib.rs lines 286-310). -/
def deactivate_hunt (s : CoreState) (hunt_id caller : Nat) :
    Except HuntErrorCode CoreState :=
  match s.hunts hunt_id with
  | none => .error .HuntNotFound
  | some hunt =>
    if caller ≠ hunt.creator then .error .Unauthorized
    else if hunt.status ≠ HuntStatus.Active then .error .InvalidHuntStatus
    else .ok (s.save_hunt { hunt with status := HuntStatus.Draft })

/-- `HuntyCore::cancel_hunt` (lib.rs lines 312-347).  The refund path is
an explicit TODO in the source (spec section 9 open question). -/
def cancel_hunt (s : CoreState) (hunt_id caller : Nat) :
    Except HuntErrorCode CoreState :=
  match s.hunts hunt_id with
  | none => .error .HuntNotFound
  | some hunt =>
    if caller ≠ hunt.creator then .error .Unauthorized
    else if hunt.status = HuntStatus.Completed then .error .InvalidHuntStatus
    else if hunt.status = HuntStatus.Cancelled then .error .InvalidHuntStatus
    else .ok (s.save_hunt { hunt with status := HuntStatus.Cancelled })

/-- `HuntyCore::register_player` (lib.rs lines 516-545). -/
def register_player (s : CoreState) (hunt_id player now : Nat) :
    Except HuntErrorCode CoreState :=
  match s.hunts hunt_id with
  | none => .error .HuntNotFound
  | some hunt =>
    if hunt.status ≠ HuntStatus.Active then .error .InvalidHuntStatus
    else if ¬ hunt.is_active now then .error .HuntNotActive
    else if (s.progress hunt_id player).isSome then .error .DuplicateRegistration
    else
      let p := PlayerProgress.new player hunt_id now
      let s1 := s.save_player_progress p
      .ok { s1 with registered := fun h =>
        if h = hunt_id then s1.registered h ++ [player] else s1.registered h }

/-- `HuntyCore::check_all_required_clues_completed` (lib.rs lines 666-690). -/
def check_all_required_clues_completed (clues : List Clue)
    (progress : PlayerProgress) : Bool :=
  clues.all (fun c => !c.is_required || progress.has_completed_clue c.clue_id)

/-- `HuntyCore::submit_answer` (lib.rs lines 573-655). -/
def submit_answer (sha256 : List Nat → List Nat) (s : CoreState)
    (hunt_id clue_id player : Nat) (answer : List Nat) (now : Nat) :
    Except HuntErrorCode CoreState :=
  match s.hunts hunt_id with
  | none => .error .HuntNotFound
  | some hunt =>
    if ¬ hunt.is_active now then .error .HuntNotActive
    else
      match s.progress hunt_id player with
      | none => .error .PlayerNotRegistered
      | some progress =>
        match s.get_clue hunt_id clue_id with
        | none => .error .ClueNotFound
        | some clue =>
          if progress.has_completed_clue clue_id then .error .ClueAlreadyCompleted
          else
            match normalize_and_hash_answer sha256 answer with
            | .error e => .error e
            | .ok submitted_hash =>
              if submitted_hash ≠ clue.answer_hash then .error .InvalidAnswer
              else
                let p1 := progress.complete_clue clue_id clue.points
                let all_required :=
                  check_all_required_clues_completed (s.clues hunt_id) p1
                let p2 :=
                  if all_required && !p1.is_completed then
                    { p1 with is_completed := true, completed_at := now }
                  else p1
                .ok (s.save_player_progress p2)

/-- The reward-distribution step of `HuntyCore::complete_hunt` (lib.rs
lines 422-475): when a RewardManager is configured, build the
cross-contract RewardConfig — the XLM amount when positive, and the NFT
fields only when nft_enabled and the hunt carries a per-hunt nft_contract
(lib.rs lines 429-447) — and invoke `distribute_rewards` when that config
names at least one reward type.  A failed nested invocation leaves the
reward-manager state unchanged (frame rollback) and surfaces
`RewardDistributionFailed`. -/
def complete_hunt_call (ext : ExtCalls) (cs : CoreState) (rs : RMState)
    (hunt_id player : Nat) (hunt : Hunt) : Except HuntErrorCode RMState :=
  match cs.reward_manager with
  | none => .ok rs
  | some _ =>
    let reward_amount := hunt.reward_config.reward_per_winner
    let nft_awarded := hunt.reward_config.nft_enabled
    let xlm_amount := if reward_amount > 0 then some reward_amount else none
    let nft_contract :=
      if nft_awarded then hunt.reward_config.nft_contract else none
    let nft_title :=
      if nft_awarded && hunt.reward_config.nft_contract.isSome
      then hunt.title else []
    let nft_desc :=
      if nft_awarded && hunt.reward_config.nft_contract.isSome
      then hunt.description else []
    let rm_cfg : RMRewardConfig :=
      { xlm_amount := xlm_amount, nft_contract := nft_contract,
        nft_title := nft_title, nft_description := nft_desc,
        nft_image_uri := [], nft_hunt_title := nft_title,
        nft_rarity := 0, nft_tier := 0 }
    if rm_cfg.is_valid then
      match distribute_rewards ext rs hunt_id player rm_cfg with
      | .ok rs' => .ok rs'
      | .error _ => .error .RewardDistributionFailed
    else .ok rs

/-- `HuntyCore::complete_hunt` (lib.rs lines 390-496).  Returns the updated
(core, reward-manager) states.  A trap in the nested frame likewise aborts
the claim with no core-side write. -/
def complete_hunt (ext : ExtCalls) (cs : CoreState) (rs : RMState)
    (hunt_id player : Nat) : Except HuntErrorCode (CoreState × RMState) :=
  match cs.hunts hunt_id with
  | none => .error .HuntNotFound
  | some hunt =>
    match cs.progress hunt_id player with
    | none => .error .PlayerNotRegistered
    | some progress =>
      if ¬ progress.is_completed then .error .HuntNotCompleted
      else if progress.reward_claimed then .error .RewardAlreadyClaimed
      else if hunt.reward_config.max_winners = 0 then .error .NoRewardsConfigured
      else if ¬ hunt.has_rewards_available then .error .InsufficientRewardPool
      else
        match complete_hunt_call ext cs rs hunt_id player hunt with
        | .error e => .error e
        | .ok rs' =>
          let cs1 := cs.save_player_progress { progress with reward_claimed := true }
          let cs2 := cs1.save_hunt
            { hunt with reward_config :=
              { hunt.reward_config with
                claimed_count := hunt.reward_config.claimed_count + 1 } }
          .ok (cs2, rs')

/-! ## hunty-core: leaderboard (lib.rs lines 716-802) -/

/-- The tuple `(player, total_score, completed_at, is_completed)` built per
player in get_hunt_leaderboard (lib.rs lines 725-733). -/
structure LBTup where
  player : Nat
  total_score : Nat
  completed_at : Nat
  is_completed : Bool
  deriving DecidableEq, Repr, Inhabited

/-- Leaderboard entry returned to callers (types.rs `LeaderboardEntry`,
fields per lib.rs lines 740-746). -/
structure LeaderboardEntry where
  rank : Nat
  player : Nat
  score : Nat
  completed_at : Nat
  is_completed : Bool
  deriving DecidableEq, Repr

/-- The sort key for completion time: `0` (never completed) is replaced by
`u64::MAX` so it sorts last (lib.rs lines 781-790). -/
def lb_time_key (t : Nat) : Nat :=
  if t = 0 then 2 ^ 64 - 1 else t

/-- The `better` comparison of leaderboard_best_index (lib.rs lines
774-796): higher score wins; on equal scores the smaller time key wins. -/
def lb_better (a b : LBTup) : Bool :=
  a.total_score > b.total_score ||
    (a.total_score == b.total_score &&
      lb_time_key a.completed_at < lb_time_key b.completed_at)

/-- The scan of `leaderboard_best_index` over candidate indices, carrying
the current best index (lib.rs lines 760-800): selected indices are
skipped; with no best yet the candidate becomes best; otherwise the best
is replaced exactly when the candidate is strictly `better`. -/
def leaderboard_scan (entries : List LBTup) (selected : List Nat) :
    List Nat → Option Nat → Option Nat
  | [], best => best
  | i :: rest, none =>
    if selected.contains i then leaderboard_scan entries selected rest none
    else leaderboard_scan entries selected rest (some i)
  | i :: rest, some bi =>
    if selected.contains i then leaderboard_scan entries selected rest (some bi)
    else if lb_better (entries.getD i default) (entries.getD bi default) then
      leaderboard_scan entries selected rest (some i)
    else leaderboard_scan entries selected rest (some bi)

/-- `HuntyCore::leaderboard_best_index` (lib.rs lines 755-802). -/
def leaderboard_best_index (entries : List LBTup) (selected : List Nat) :
    Option Nat :=
  leaderboard_scan entries selected (List.range entries.length) none

/-- The selection loop of get_hunt_leaderboard (lib.rs lines 736-750):
repeatedly pick the best unselected entry, tag it with its 1-based rank,
until the limit is reached or no entry remains. -/
def leaderboard_select (entries : List LBTup) :
    Nat → Nat → List Nat → List LeaderboardEntry
  | 0, _, _ => []
  | fuel + 1, rank, selected =>
    match leaderboard_best_index entries selected with
    | none => []
    | some bi =>
      let e := entries.getD bi default
      { rank := rank, player := e.player, score := e.total_score,
        completed_at := e.completed_at, is_completed := e.is_completed } ::
        leaderboard_select entries fuel (rank + 1) (selected ++ [bi])

/-- The pure top-K computation of `HuntyCore::get_hunt_leaderboard` on the
collected tuples, with the limit capped at MAX_LEADERBOARD_SIZE = 20
(lib.rs lines 722, 734-751). -/
def leaderboard_topk (entries : List LBTup) (limit : Nat) :
    List LeaderboardEntry :=
  leaderboard_select entries (min limit 20) 1 []

/-- The tuples collected from the hunt's player-progress records
(lib.rs lines 723-733). -/
def lb_entries (s : CoreState) (hunt_id : Nat) : List LBTup :=
  (s.get_hunt_players hunt_id).map (fun p =>
    { player := p.player, total_score := p.total_score,
      completed_at := p.completed_at, is_completed := p.is_completed : LBTup })

/-- `HuntyCore::get_hunt_leaderboard` (lib.rs lines 716-752). -/
def get_hunt_leaderboard (s : CoreState) (hunt_id limit : Nat) :
    Except HuntErrorCode (List LeaderboardEntry) :=
  match s.hunts hunt_id with
  | none => .error .HuntNotFound
  | some _ => .ok (leaderboard_topk (lb_entries s hunt_id) limit)

/-! ## Helper projections used to state observable outcomes -/

/-- The empty core storage: fresh contract, hunt ids start at 1. -/
def emptyCore : CoreState :=
  { next_id := 1, hunts := fun _ => none, clues := fun _ => [],
    progress := fun _ _ => none, registered := fun _ => [],
    reward_manager := none }

/-- The hunt stored under the returned id of a successful create_hunt. -/
def hunt_of_result (r : Except HuntErrorCode (CoreState × Nat)) : Option Hunt :=
  match r with
  | .ok (s', id) => s'.hunts id
  | .error _ => none

/-- `claimed_count` of a hunt after a claim operation (`none` on failure
or when the hunt is absent). -/
def claimed_after (r : Except HuntErrorCode (CoreState × RMState)) (hunt_id : Nat) :
    Option Nat :=
  match r with
  | .ok (cs, _) => (cs.hunts hunt_id).map (fun h => h.reward_config.claimed_count)
  | .error _ => none

/-- `reward_claimed` of a player's progress after a claim operation. -/
def reward_claimed_after (r : Except HuntErrorCode (CoreState × RMState))
    (hunt_id player : Nat) : Option Bool :=
  match r with
  | .ok (cs, _) => (cs.progress hunt_id player).map (fun p => p.reward_claimed)
  | .error _ => none

/-- Caller-visible states after a claim operation: on failure the host
rolls the frame back, so the pre-call states remain visible. -/
def states_after (r : Except HuntErrorCode (CoreState × RMState))
    (pre : CoreState × RMState) : CoreState × RMState :=
  match r with
  | .ok st => st
  | .error _ => pre

/-- Pool balance of a hunt after a reward-manager operation. -/
def pool_after (r : Except RMFailure RMState) (hunt_id : Nat) : Option Int :=
  match r with
  | .ok s => some (s.pool hunt_id)
  | .error _ => none

/-- Caller-visible core state after an operation returning only a core
state: on failure the frame is rolled back. -/
def core_after (r : Except HuntErrorCode CoreState) (pre : CoreState) : CoreState :=
  match r with
  | .ok s => s
  | .error _ => pre

/-- A player's progress record after an operation returning a core state. -/
def progress_after (r : Except HuntErrorCode CoreState) (hunt_id player : Nat) :
    Option PlayerProgress :=
  match r with
  | .ok s => s.progress hunt_id player
  | .error _ => none

/-- The ranking order the spec states for consecutive leaderboard entries:
descending score, ties broken by ascending completion-time key (with the
zero / unset time mapped to the largest key). -/
def lb_order (x y : LeaderboardEntry) : Prop :=
  y.score < x.score ∨
    (y.score = x.score ∧ lb_time_key x.completed_at ≤ lb_time_key y.completed_at)

/-! ## Concrete fixtures used by witnesses -/

/-- A live three-winner hunt with a 9000 pool configured. -/
def huntW : Hunt :=
  { hunt_id := 1, creator := 7, title := [97], description := [98],
    status := HuntStatus.Active, created_at := 0, activated_at := 1,
    end_time := 0,
    reward_config :=
      { xlm_pool := 9000, nft_enabled := false, nft_contract := none,
        max_winners := 3, claimed_count := 0 },
    total_clues := 1, required_clues := 1 }

/-- Player 2's completed, unclaimed progress on hunt 1. -/
def progW : PlayerProgress :=
  { player := 2, hunt_id := 1, completed_clues := [1], total_score := 10,
    is_completed := true, completed_at := 5, reward_claimed := false,
    registered_at := 0 }

/-- Core state holding huntW and progW, with no RewardManager configured. -/
def csW : CoreState :=
  { next_id := 2, hunts := fun i => if i = 1 then some huntW else none,
    clues := fun _ => [],
    progress := fun h p => if h = 1 && p = 2 then some progW else none,
    registered := fun h => if h = 1 then [2] else [],
    reward_manager := none }

/-- Reward-manager state with an initialized token and a 9000 pool. -/
def rsW : RMState :=
  { xlm_token := some 5, nft_default := none,
    distributed := fun _ _ => false, records := fun _ _ => none,
    pool := fun _ => 9000 }

/-- A completed progress record for the leaderboard example. -/
def progL (pl sc t : Nat) : PlayerProgress :=
  { player := pl, hunt_id := 1, completed_clues := [], total_score := sc,
    is_completed := true, completed_at := t, reward_claimed := false,
    registered_at := 0 }

/-- Core state with three completed players on hunt 1: scores 15, 15, 10
and completion times 50, 40, 60. -/
def csL : CoreState :=
  { next_id := 2, hunts := fun i => if i = 1 then some huntW else none,
    clues := fun _ => [],
    progress := fun h p =>
      if h = 1 then
        if p = 1 then some (progL 1 15 50)
        else if p = 2 then some (progL 2 15 40)
        else if p = 3 then some (progL 3 10 60)
        else none
      else none,
    registered := fun h => if h = 1 then [1, 2, 3] else [],
    reward_manager := none }

/-! ## C9: create_hunt validation and initial state -/

/-- C9 counterexample: the claim states create_hunt fails whenever the
description is empty, but `create_hunt` only rejects descriptions longer
than 2000 units (lib.rs lines 66-69); a call with a one-byte title and an
empty description succeeds. -/
theorem create_hunt_empty_description_counterexample :
    (create_hunt emptyCore 7 [97] [] none none 0).isOk = true := by
  rfl

/-- C9 (amended): create_hunt fails with InvalidTitle when the title is
empty or longer than 200 units, fails with InvalidDescription when the
description is longer than 2000 units (an empty description is accepted),
and on success the new hunt has status Draft, a zeroed reward
configuration and zero clues. -/
theorem create_hunt_validation_amended (s : CoreState) (creator : Nat)
    (title description : List Nat) (st et : Option Nat) (now : Nat) :
    (title.length = 0 ∨ title.length > 200 →
      create_hunt s creator title description st et now = .error .InvalidTitle) ∧
    (title.length ≠ 0 → title.length ≤ 200 → description.length > 2000 →
      create_hunt s creator title description st et now =
        .error .InvalidDescription) ∧
    (title.length ≠ 0 → title.length ≤ 200 → description.length ≤ 2000 →
      (hunt_of_result (create_hunt s creator title description st et now)).map
          (fun h => (h.status, h.reward_config, h.total_clues)) =
        some (HuntStatus.Draft, RewardConfig.new 0 false none 0, 0)) := by
  refine ⟨?_, ?_, ?_⟩
  · intro h
    unfold create_hunt
    rcases h with h | h
    · simp [h]
    · have h0 : title.length ≠ 0 := by omega
      simp [h0, h]
  · intro h1 h2 h3
    unfold create_hunt
    simp [h1, h3]
    omega
  · intro h1 h2 h3
    unfold create_hunt
    have h2' : ¬ title.length > 200 := by omega
    have h3' : ¬ description.length > 2000 := by omega
    simp [h1, h2', h3', hunt_of_result, CoreState.save_hunt, RewardConfig.new]

/-- C9 witness: the amended theorem applied at a concrete call — a
one-byte title, a one-byte description. -/
theorem create_hunt_validation_amended_witness :
    ((hunt_of_result (create_hunt emptyCore 7 [97] [98] none none 0)).map
        (fun h => (h.status, h.reward_config, h.total_clues)) =
      some (HuntStatus.Draft, RewardConfig.new 0 false none 0, 0)) :=
  (create_hunt_validation_amended emptyCore 7 [97] [98] none none 0).2.2
    (by decide) (by decide) (by decide)

/-! ## C7: Cancelled is terminal; activation guards -/

/-- C7: once a hunt's status is Cancelled it never changes again — every
lifecycle operation (add_clue, activate_hunt, deactivate_hunt,
cancel_hunt) on it fails, and a failed frame performs no write;
cancel_hunt by the creator is rejected with InvalidHuntStatus when the
status is Completed or already Cancelled; activate_hunt fails on a hunt
with zero clues and fails with Unauthorized for any caller who is not the
creator. -/
theorem cancelled_terminal_and_activate_guards
    (sha256 : List Nat → List Nat) (s : CoreState) (hunt_id caller now : Nat)
    (q a : List Nat) (pts : Nat) (req : Bool) (hunt : Hunt)
    (hh : s.hunts hunt_id = some hunt) :
    (hunt.status = HuntStatus.Cancelled →
      (add_clue sha256 s hunt_id q a pts req).isOk = false ∧
      (activate_hunt s hunt_id caller now).isOk = false ∧
      (deactivate_hunt s hunt_id caller).isOk = false ∧
      (cancel_hunt s hunt_id caller).isOk = false) ∧
    (caller = hunt.creator → hunt.status = HuntStatus.Completed ∨
        hunt.status = HuntStatus.Cancelled →
      cancel_hunt s hunt_id caller = .error .InvalidHuntStatus) ∧
    (hunt.total_clues = 0 → (activate_hunt s hunt_id caller now).isOk = false) ∧
    (caller ≠ hunt.creator →
      activate_hunt s hunt_id caller now = .error .Unauthorized) := by
  refine ⟨?_, ?_, ?_, ?_⟩
  · intro hc
    refine ⟨?_, ?_, ?_, ?_⟩
    · unfold add_clue
      rw [hh]
      simp [hc, Except.isOk, Except.toBool]
    · unfold activate_hunt
      rw [hh]
      by_cases hca : caller = hunt.creator <;>
        simp [hca, hc, Except.isOk, Except.toBool]
    · unfold deactivate_hunt
      rw [hh]
      by_cases hca : caller = hunt.creator <;>
        simp [hca, hc, Except.isOk, Except.toBool]
    · unfold cancel_hunt
      rw [hh]
      by_cases hca : caller = hunt.creator <;>
        simp [hca, hc, Except.isOk, Except.toBool]
  · intro hca hst
    unfold cancel_hunt
    rw [hh]
    rcases hst with hst | hst <;> simp [hca, hst]
  · intro hcl
    unfold activate_hunt
    rw [hh]
    by_cases hca : caller = hunt.creator <;>
      by_cases hst : hunt.status = HuntStatus.Draft <;>
        simp [hca, hst, hcl, Except.isOk, Except.toBool]
  · intro hca
    unfold activate_hunt
    rw [hh]
    simp [hca]

/-- C7 witness: a concrete Cancelled hunt — all lifecycle operations on it
fail; a concrete zero-clue Draft hunt cannot be activated, nor can a
non-creator activate it. -/
theorem cancelled_terminal_and_activate_guards_witness :
    ((add_clue (fun l => l)
        (emptyCore.save_hunt
          { hunt_id := 1, creator := 7, title := [97], description := [98],
            status := HuntStatus.Cancelled, created_at := 0, activated_at := 0,
            end_time := 0, reward_config := RewardConfig.new 0 false none 0,
            total_clues := 1, required_clues := 0 })
        1 [99] [100] 5 true).isOk = false ∧
      (activate_hunt
        (emptyCore.save_hunt
          { hunt_id := 1, creator := 7, title := [97], description := [98],
            status := HuntStatus.Cancelled, created_at := 0, activated_at := 0,
            end_time := 0, reward_config := RewardConfig.new 0 false none 0,
            total_clues := 1, required_clues := 0 })
        1 7 3).isOk = false ∧
      (deactivate_hunt
        (emptyCore.save_hunt
          { hunt_id := 1, creator := 7, title := [97], description := [98],
            status := HuntStatus.Cancelled, created_at := 0, activated_at := 0,
            end_time := 0, reward_config := RewardConfig.new 0 false none 0,
            total_clues := 1, required_clues := 0 })
        1 7).isOk = false ∧
      (cancel_hunt
        (emptyCore.save_hunt
          { hunt_id := 1, creator := 7, title := [97], description := [98],
            status := HuntStatus.Cancelled, created_at := 0, activated_at := 0,
            end_time := 0, reward_config := RewardConfig.new 0 false none 0,
            total_clues := 1, required_clues := 0 })
        1 7).isOk = false) :=
  (cancelled_terminal_and_activate_guards (fun l => l)
    (emptyCore.save_hunt
      { hunt_id := 1, creator := 7, title := [97], description := [98],
        status := HuntStatus.Cancelled, created_at := 0, activated_at := 0,
        end_time := 0, reward_config := RewardConfig.new 0 false none 0,
        total_clues := 1, required_clues := 0 })
    1 7 3 [99] [100] 5 true _ (by rfl)).1 (by rfl)

/-! ## C1: distribute_rewards is atomic under nested-call failure -/

/-- C1: when a distribution requests both a fungible amount and an NFT and
either the nested fungible transfer or the nested NFT mint fails, the
whole invocation fails and the caller-visible state is exactly the
pre-call state: no distribution record is written, the per-(hunt, player)
distributed marker is not set, and the hunt's pool balance is unchanged. -/
theorem distribute_rewards_atomic_on_nested_failure
    (ext : ExtCalls) (s : RMState) (hunt_id player : Nat) (cfg : RMRewardConfig)
    (hxlm : cfg.has_xlm = true) (hnft : cfg.has_nft = true)
    (hfail : ext.transfer_ok = false ∨ ext.mint = none) :
    (distribute_rewards_invoke ext s hunt_id player cfg).2.isSome = true ∧
    (distribute_rewards_invoke ext s hunt_id player cfg).1 = s ∧
    (distribute_rewards_invoke ext s hunt_id player cfg).1.records hunt_id player =
      s.records hunt_id player ∧
    (distribute_rewards_invoke ext s hunt_id player cfg).1.distributed hunt_id player =
      s.distributed hunt_id player ∧
    (distribute_rewards_invoke ext s hunt_id player cfg).1.pool hunt_id =
      s.pool hunt_id := by
  have hframe : ∃ e, distribute_rewards ext s hunt_id player cfg = .error e := by
    unfold distribute_rewards
    have hval : cfg.is_valid = true := by
      unfold RMRewardConfig.is_valid
      simp [hxlm]
    rw [hval]
    simp only [Bool.not_true, Bool.false_eq_true, if_false]
    by_cases hdist : s.distributed hunt_id player
    · simp [hdist]
    · simp only [hdist, if_false]
      rw [hxlm]
      simp only [if_true]
      by_cases hamt : cfg.xlm_amount.getD 0 ≤ 0
      · simp [hamt]
      · simp only [hamt, if_false]
        cases htok : s.xlm_token with
        | none => simp
        | some tok =>
          by_cases hpool : s.pool hunt_id < cfg.xlm_amount.getD 0
          · simp [hpool]
          · simp only [hpool, if_false]
            rcases hfail with hno | hno
            · simp [hno]
            · cases htr : ext.transfer_ok
              · simp
              · simp only [if_true]
                rw [hnft]
                simp only [if_true]
                cases hc : cfg.nft_contract with
                | none =>
                  unfold RMRewardConfig.has_nft at hnft
                  rw [hc] at hnft
                  simp at hnft
                | some c => simp [Option.orElse, hno]
  obtain ⟨e, he⟩ := hframe
  unfold distribute_rewards_invoke
  rw [he]
  simp

/-- C1 witness: a concrete distribution requesting 100 XLM and an NFT with
a failing mint leaves the concrete pre-state observable. -/
theorem distribute_rewards_atomic_on_nested_failure_witness :
    ((distribute_rewards_invoke ⟨true, none⟩
        { xlm_token := some 5, nft_default := none,
          distributed := fun _ _ => false, records := fun _ _ => none,
          pool := fun _ => 1000 } 1 2
        { xlm_amount := some 100, nft_contract := some 9, nft_title := [],
          nft_description := [], nft_image_uri := [], nft_hunt_title := [],
          nft_rarity := 0, nft_tier := 0 }).2.isSome = true ∧
      (distribute_rewards_invoke ⟨true, none⟩
        { xlm_token := some 5, nft_default := none,
          distributed := fun _ _ => false, records := fun _ _ => none,
          pool := fun _ => 1000 } 1 2
        { xlm_amount := some 100, nft_contract := some 9, nft_title := [],
          nft_description := [], nft_image_uri := [], nft_hunt_title := [],
          nft_rarity := 0, nft_tier := 0 }).1 =
        { xlm_token := some 5, nft_default := none,
          distributed := fun _ _ => false, records := fun _ _ => none,
          pool := fun _ => 1000 } ∧
      (distribute_rewards_invoke ⟨true, none⟩
        { xlm_token := some 5, nft_default := none,
          distributed := fun _ _ => false, records := fun _ _ => none,
          pool := fun _ => 1000 } 1 2
        { xlm_amount := some 100, nft_contract := some 9, nft_title := [],
          nft_description := [], nft_image_uri := [], nft_hunt_title := [],
          nft_rarity := 0, nft_tier := 0 }).1.records 1 2 = none ∧
      (distribute_rewards_invoke ⟨true, none⟩
        { xlm_token := some 5, nft_default := none,
          distributed := fun _ _ => false, records := fun _ _ => none,
          pool := fun _ => 1000 } 1 2
        { xlm_amount := some 100, nft_contract := some 9, nft_title := [],
          nft_description := [], nft_image_uri := [], nft_hunt_title := [],
          nft_rarity := 0, nft_tier := 0 }).1.distributed 1 2 = false ∧
      (distribute_rewards_invoke ⟨true, none⟩
        { xlm_token := some 5, nft_default := none,
          distributed := fun _ _ => false, records := fun _ _ => none,
          pool := fun _ => 1000 } 1 2
        { xlm_amount := some 100, nft_contract := some 9, nft_title := [],
          nft_description := [], nft_image_uri := [], nft_hunt_title := [],
          nft_rarity := 0, nft_tier := 0 }).1.pool 1 = 1000) :=
  distribute_rewards_atomic_on_nested_failure ⟨true, none⟩
    { xlm_token := some 5, nft_default := none,
      distributed := fun _ _ => false, records := fun _ _ => none,
      pool := fun _ => 1000 } 1 2
    { xlm_amount := some 100, nft_contract := some 9, nft_title := [],
      nft_description := [], nft_image_uri := [], nft_hunt_title := [],
      nft_rarity := 0, nft_tier := 0 }
    (by rfl) (by rfl) (Or.inr rfl)

/-! ## C2: distribute_rewards precondition order -/

/-- `has_xlm` means the optional amount is present and positive. -/
theorem has_xlm_pos (cfg : RMRewardConfig) (h : cfg.has_xlm = true) :
    0 < cfg.xlm_amount.getD 0 := by
  unfold RMRewardConfig.has_xlm at h
  cases hx : cfg.xlm_amount with
  | none => rw [hx] at h; simp [Option.map, Option.getD] at h
  | some a =>
    rw [hx] at h
    simp [Option.map, Option.getD] at h ⊢
    exact h

/-- C2 counterexample: the claim states that a configuration requesting
only an NFT with no explicit nft_contract succeeds when a default NFT
contract has been configured; but `has_nft` is `nft_contract.is_some()`,
so such a configuration is not "valid" and distribute_rewards rejects it
with InvalidConfig even though the state carries a configured default NFT
contract (address 9) and an initialized token. -/
theorem distribute_rewards_default_nft_counterexample :
    distribute_rewards ⟨true, some 1⟩
      { xlm_token := some 5, nft_default := some 9,
        distributed := fun _ _ => false, records := fun _ _ => none,
        pool := fun _ => 1000 } 1 2
      { xlm_amount := none, nft_contract := none, nft_title := [],
        nft_description := [], nft_image_uri := [], nft_hunt_title := [],
        nft_rarity := 0, nft_tier := 0 } =
      .error (.code .InvalidConfig) := by
  rfl

/-- C2 (amended): distribute_rewards checks, in order: (1) the
configuration must name at least one reward type — a positive fungible
amount or an explicit nft_contract — else InvalidConfig; (2) no prior
distribution for the pair, else AlreadyDistributed; (3) when a fungible
amount is requested it is positive by construction, the token contract
must be initialized (else NotInitialized) and the per-hunt pool must
cover the amount, else InsufficientPool; (4) an NFT is requested exactly
when an explicit nft_contract is present, in which case it is used
directly and the configured default is never consulted — in particular a
configuration with no fungible amount and no explicit nft_contract fails
with InvalidConfig regardless of any configured default; and when every
check passes and the nested calls succeed, the distribution succeeds. -/
theorem distribute_rewards_precondition_order_amended
    (ext : ExtCalls) (s : RMState) (hunt_id player : Nat) (cfg : RMRewardConfig)
    (tok : Nat) :
    (cfg.is_valid = false →
      distribute_rewards ext s hunt_id player cfg = .error (.code .InvalidConfig)) ∧
    (cfg.is_valid = true → s.distributed hunt_id player = true →
      distribute_rewards ext s hunt_id player cfg =
        .error (.code .AlreadyDistributed)) ∧
    (cfg.is_valid = true → s.distributed hunt_id player = false →
      cfg.has_xlm = true → s.xlm_token = none →
      distribute_rewards ext s hunt_id player cfg =
        .error (.code .NotInitialized)) ∧
    (cfg.is_valid = true → s.distributed hunt_id player = false →
      cfg.has_xlm = true → s.xlm_token = some tok →
      s.pool hunt_id < cfg.xlm_amount.getD 0 →
      distribute_rewards ext s hunt_id player cfg =
        .error (.code .InsufficientPool)) ∧
    (cfg.xlm_amount = none → cfg.nft_contract = none →
      distribute_rewards ext s hunt_id player cfg =
        .error (.code .InvalidConfig)) ∧
    (cfg.has_nft = true →
      cfg.nft_contract.orElse (fun _ => s.nft_default) = cfg.nft_contract) ∧
    (cfg.is_valid = true → s.distributed hunt_id player = false →
      (cfg.has_xlm = true → s.xlm_token.isSome = true ∧
        cfg.xlm_amount.getD 0 ≤ s.pool hunt_id ∧ ext.transfer_ok = true) →
      (cfg.has_nft = true → ext.mint.isSome = true) →
      (distribute_rewards ext s hunt_id player cfg).isOk = true) := by
  refine ⟨?_, ?_, ?_, ?_, ?_, ?_, ?_⟩
  · intro hv
    unfold distribute_rewards
    simp [hv]
  · intro hv hd
    unfold distribute_rewards
    simp [hv, hd]
  · intro hv hd hx htok
    unfold distribute_rewards
    have hpos := has_xlm_pos cfg hx
    have hna : ¬ cfg.xlm_amount.getD 0 ≤ 0 := by omega
    simp [hv, hd, hx, htok, hna]
  · intro hv hd hx htok hpool
    unfold distribute_rewards
    have hpos := has_xlm_pos cfg hx
    have hna : ¬ cfg.xlm_amount.getD 0 ≤ 0 := by omega
    simp [hv, hd, hx, htok, hna, hpool]
  · intro hxa hnc
    unfold distribute_rewards
    have hv : cfg.is_valid = false := by
      unfold RMRewardConfig.is_valid RMRewardConfig.has_xlm RMRewardConfig.has_nft
      simp [hxa, hnc]
    simp [hv]
  · intro hn
    unfold RMRewardConfig.has_nft at hn
    cases hc : cfg.nft_contract with
    | none => rw [hc] at hn; simp at hn
    | some c => simp [Option.orElse]
  · intro hv hd hxlm hnft
    unfold distribute_rewards
    simp only [hv, Bool.not_true, Bool.false_eq_true, if_false, hd]
    by_cases hx : cfg.has_xlm
    · obtain ⟨htok, hle, htr⟩ := hxlm hx
      have hpos := has_xlm_pos cfg hx
      have hna : ¬ cfg.xlm_amount.getD 0 ≤ 0 := by omega
      have hnp : ¬ s.pool hunt_id < cfg.xlm_amount.getD 0 := by omega
      cases htk : s.xlm_token with
      | none => rw [htk] at htok; simp at htok
      | some t =>
        simp only [hx, if_true, hna, if_false, htk, hnp, htr]
        by_cases hn : cfg.has_nft
        · have hm := hnft hn
          have hcs := hn
          unfold RMRewardConfig.has_nft at hcs
          cases hc : cfg.nft_contract with
          | none => rw [hc] at hcs; simp at hcs
          | some c =>
            cases hmm : ext.mint with
            | none => rw [hmm] at hm; simp at hm
            | some i =>
              simp [hn, hc, hmm, Option.orElse, Except.isOk, Except.toBool]
        · simp [hn, Except.isOk, Except.toBool]
    · have hn : cfg.has_nft = true := by
        have := hv
        unfold RMRewardConfig.is_valid at this
        simp [hx] at this
        exact this
      have hm := hnft hn
      have hcs := hn
      unfold RMRewardConfig.has_nft at hcs
      cases hc : cfg.nft_contract with
      | none => rw [hc] at hcs; simp at hcs
      | some c =>
        cases hmm : ext.mint with
        | none => rw [hmm] at hm; simp at hm
        | some i =>
          simp [hx, hn, hc, hmm, Option.orElse, Except.isOk, Except.toBool]

/-- C2 witness: the amended theorem at a concrete fully-passing call — a
100 XLM + explicit-NFT distribution against a funded, initialized state
succeeds. -/
theorem distribute_rewards_precondition_order_amended_witness :
    (distribute_rewards ⟨true, some 1⟩
      { xlm_token := some 5, nft_default := none,
        distributed := fun _ _ => false, records := fun _ _ => none,
        pool := fun _ => 1000 } 1 2
      { xlm_amount := some 100, nft_contract := some 9, nft_title := [],
        nft_description := [], nft_image_uri := [], nft_hunt_title := [],
        nft_rarity := 0, nft_tier := 0 }).isOk = true :=
  (distribute_rewards_precondition_order_amended ⟨true, some 1⟩
    { xlm_token := some 5, nft_default := none,
      distributed := fun _ _ => false, records := fun _ _ => none,
      pool := fun _ => 1000 } 1 2
    { xlm_amount := some 100, nft_contract := some 9, nft_title := [],
      nft_description := [], nft_image_uri := [], nft_hunt_title := [],
      nft_rarity := 0, nft_tier := 0 } 5).2.2.2.2.2.2
    (by rfl) (by rfl) (fun _ => ⟨by rfl, by decide, by rfl⟩) (fun _ => by rfl)

/-! ## C8: fund_reward_pool is additive and per-hunt isolated -/

/-- A successful funding sequence adds the sum of the amounts to the
funded hunt's pool and leaves every other hunt's pool unchanged. -/
theorem fund_seq_pool (funder hunt_id tok : Nat) :
    ∀ (amounts : List Int) (s : RMState), s.xlm_token = some tok →
      (∀ a ∈ amounts, 0 < a) →
      (fund_seq s funder hunt_id amounts).map (fun s' => s'.pool hunt_id) =
        some (s.pool hunt_id + amounts.sum) ∧
      ∀ h', h' ≠ hunt_id →
        (fund_seq s funder hunt_id amounts).map (fun s' => s'.pool h') =
          some (s.pool h') := by
  intro amounts
  induction amounts with
  | nil => intro s htok hpos; simp [fund_seq]
  | cons a rest ih =>
    intro s htok hpos
    have ha : 0 < a := hpos a (List.mem_cons_self a rest)
    have hna : ¬ a ≤ 0 := by omega
    have hstep : fund_reward_pool true s funder hunt_id a =
        .ok (s.set_pool_balance hunt_id (s.pool hunt_id + a)) := by
      unfold fund_reward_pool
      simp [hna, htok]
    have htok1 : (s.set_pool_balance hunt_id (s.pool hunt_id + a)).xlm_token =
        some tok := htok
    have hrest := ih (s.set_pool_balance hunt_id (s.pool hunt_id + a)) htok1
      (fun x hx => hpos x (List.mem_cons_of_mem a hx))
    unfold fund_seq
    rw [hstep]
    refine ⟨?_, ?_⟩
    · rw [hrest.1]
      have hp : (s.set_pool_balance hunt_id (s.pool hunt_id + a)).pool hunt_id =
          s.pool hunt_id + a := by
        unfold RMState.set_pool_balance
        simp
      rw [hp]
      simp [List.sum_cons]
      ring
    · intro h' hne
      rw [hrest.2 h' hne]
      have hp : (s.set_pool_balance hunt_id (s.pool hunt_id + a)).pool h' =
          s.pool h' := by
        unfold RMState.set_pool_balance
        simp [hne]
      rw [hp]

/-- C8: a successful fund_reward_pool call adds exactly the funded amount
to the hunt's pool balance and leaves the pool of every other hunt
unchanged; consequently any sequence of successful fundings yields the
initial balance plus the sum of the funded amounts. -/
theorem fund_reward_pool_additive_isolated (s : RMState)
    (funder hunt_id h' tok : Nat) (amount : Int) (amounts : List Int)
    (htok : s.xlm_token = some tok) :
    (0 < amount →
      pool_after (fund_reward_pool true s funder hunt_id amount) hunt_id =
        some (s.pool hunt_id + amount) ∧
      (h' ≠ hunt_id →
        pool_after (fund_reward_pool true s funder hunt_id amount) h' =
          some (s.pool h'))) ∧
    ((∀ a ∈ amounts, 0 < a) →
      (fund_seq s funder hunt_id amounts).map (fun s' => s'.pool hunt_id) =
        some (s.pool hunt_id + amounts.sum) ∧
      (h' ≠ hunt_id →
        (fund_seq s funder hunt_id amounts).map (fun s' => s'.pool h') =
          some (s.pool h'))) := by
  refine ⟨?_, ?_⟩
  · intro ha
    have hna : ¬ amount ≤ 0 := by omega
    unfold fund_reward_pool
    simp only [hna, if_false, htok]
    refine ⟨?_, ?_⟩
    · unfold pool_after RMState.set_pool_balance
      simp
    · intro hne
      unfold pool_after RMState.set_pool_balance
      simp [hne]
  · intro hpos
    have h := fund_seq_pool funder hunt_id tok amounts s htok hpos
    exact ⟨h.1, fun hne => h.2 h' hne⟩

/-- C8 witness: funding hunt 1 with 5000 then 3000 from a zero pool
yields balance 8000, and hunt 2's balance is untouched. -/
theorem fund_reward_pool_additive_isolated_witness :
    ((fund_seq
        { xlm_token := some 5, nft_default := none,
          distributed := fun _ _ => false, records := fun _ _ => none,
          pool := fun _ => 0 } 4 1 [5000, 3000]).map
        (fun s' => s'.pool 1) = some (0 + [(5000 : Int), 3000].sum) ∧
      ((2 : Nat) ≠ 1 →
        (fund_seq
          { xlm_token := some 5, nft_default := none,
            distributed := fun _ _ => false, records := fun _ _ => none,
            pool := fun _ => 0 } 4 1 [5000, 3000]).map
          (fun s' => s'.pool 2) = some 0)) :=
  (fund_reward_pool_additive_isolated
    { xlm_token := some 5, nft_default := none,
      distributed := fun _ _ => false, records := fun _ _ => none,
      pool := fun _ => 0 } 4 1 2 5 7 [5000, 3000] (by rfl)).2
    (by decide)

/-! ## C5: answer normalization -/

/-- Refinement: within the length cap, the source's index-loop
normalization computes exactly the spec's trim-then-lowercase
normalization, rejecting inputs whose trimmed content is empty. -/
theorem normalize_eq_spec (sha256 : List Nat → List Nat) (x : List Nat)
    (hle : x.length ≤ 256) :
    normalize_and_hash_answer sha256 x =
      if spec_normalize x = [] then .error .InvalidAnswer
      else .ok (sha256 (spec_normalize x)) := by
  by_cases hx0 : x.length = 0
  · have hx : x = [] := List.length_eq_zero.mp hx0
    subst hx
    rfl
  · have hgt : ¬ x.length > 256 := by omega
    unfold normalize_and_hash_answer
    rw [if_neg hx0, if_neg hgt]
    by_cases ht : ((x.dropWhile is_ascii_space).reverse.dropWhile
        is_ascii_space).reverse = []
    · have hsp : spec_normalize x = [] := by
        unfold spec_normalize
        rw [ht]
        rfl
      rw [if_pos ht, if_pos hsp]
    · have hsp : ¬ spec_normalize x = [] := by
        unfold spec_normalize
        intro hmap
        exact ht (List.map_eq_nil_iff.mp hmap)
      rw [if_neg ht, if_neg hsp]
      rfl

/-- C5: any two answers of admissible length that agree after the spec's
trim-and-lowercase normalization produce the identical hash result; and
any input that is empty, all-whitespace, or longer than 256 units is
rejected with the invalid-answer error before hashing. -/
theorem normalize_answer_equiv_and_reject (sha256 : List Nat → List Nat)
    (a b : List Nat) :
    (a.length ≤ 256 → b.length ≤ 256 → spec_normalize a = spec_normalize b →
      normalize_and_hash_answer sha256 a = normalize_and_hash_answer sha256 b) ∧
    (a.length = 0 ∨ (∀ c ∈ a, is_ascii_space c = true) ∨ a.length > 256 →
      normalize_and_hash_answer sha256 a = .error .InvalidAnswer) := by
  refine ⟨?_, ?_⟩
  · intro ha hb heq
    rw [normalize_eq_spec sha256 a ha, normalize_eq_spec sha256 b hb, heq]
  · intro h
    rcases h with h0 | hws | hgt
    · unfold normalize_and_hash_answer
      simp [h0]
    · by_cases hle : a.length ≤ 256
      · rw [normalize_eq_spec sha256 a hle]
        have hdw : a.dropWhile is_ascii_space = [] :=
          List.dropWhile_eq_nil_iff.mpr hws
        unfold spec_normalize
        rw [hdw]
        simp
      · unfold normalize_and_hash_answer
        have : a.length > 256 := by omega
        have h0 : a.length ≠ 0 := by omega
        simp [h0, this]
    · unfold normalize_and_hash_answer
      have h0 : a.length ≠ 0 := by omega
      simp [h0, hgt]

/-- C5 witness: the bytes of "  ANSWER  " and "answer" hash identically
(the hash collaborator instantiated with the identity), and an
all-whitespace submission is rejected. -/
theorem normalize_answer_equiv_and_reject_witness :
    (normalize_and_hash_answer (fun l => l) [32, 32, 65, 78, 83, 87, 69, 82, 32, 32] =
      normalize_and_hash_answer (fun l => l) [97, 110, 115, 119, 101, 114]) ∧
    (normalize_and_hash_answer (fun l => l) [32, 9, 32] =
      .error .InvalidAnswer) :=
  ⟨(normalize_answer_equiv_and_reject (fun l => l)
      [32, 32, 65, 78, 83, 87, 69, 82, 32, 32] [97, 110, 115, 119, 101, 114]).1
      (by decide) (by decide) (by decide),
   (normalize_answer_equiv_and_reject (fun l => l) [32, 9, 32] []).2
      (Or.inr (Or.inl (by decide)))⟩

/-! ## C4: submit_answer -/

/-- C4: for a registered player on a live hunt submitting against an
existing clue — a clue already in the player's completed set is rejected
with ClueAlreadyCompleted and the frame performs no write; a submission
whose normalized hash differs from the stored hash fails with
InvalidAnswer and performs no write; a matching submission appends the
clue id to the completed set and adds the clue's points to the score, and
when every required clue is then completed and the player was not
previously marked complete, the completion flag is set and the completion
time recorded. -/
theorem submit_answer_correct (sha256 : List Nat → List Nat) (s : CoreState)
    (hunt_id clue_id player : Nat) (answer : List Nat) (now : Nat)
    (hunt : Hunt) (progress : PlayerProgress) (clue : Clue) (hsh : List Nat)
    (hh : s.hunts hunt_id = some hunt)
    (hact : hunt.is_active now = true)
    (hp : s.progress hunt_id player = some progress)
    (hc : s.get_clue hunt_id clue_id = some clue)
    (hkh : progress.hunt_id = hunt_id)
    (hkp : progress.player = player) :
    (progress.has_completed_clue clue_id = true →
      submit_answer sha256 s hunt_id clue_id player answer now =
        .error .ClueAlreadyCompleted ∧
      core_after (submit_answer sha256 s hunt_id clue_id player answer now) s = s) ∧
    (progress.has_completed_clue clue_id = false →
      normalize_and_hash_answer sha256 answer = .ok hsh →
      hsh ≠ clue.answer_hash →
      submit_answer sha256 s hunt_id clue_id player answer now =
        .error .InvalidAnswer ∧
      core_after (submit_answer sha256 s hunt_id clue_id player answer now) s = s) ∧
    (progress.has_completed_clue clue_id = false →
      normalize_and_hash_answer sha256 answer = .ok clue.answer_hash →
      (progress_after (submit_answer sha256 s hunt_id clue_id player answer now)
          hunt_id player).map (fun p => p.completed_clues) =
        some (progress.completed_clues ++ [clue_id]) ∧
      (progress_after (submit_answer sha256 s hunt_id clue_id player answer now)
          hunt_id player).map (fun p => p.total_score) =
        some (progress.total_score + clue.points) ∧
      (check_all_required_clues_completed (s.clues hunt_id)
          (progress.complete_clue clue_id clue.points) = true →
        progress.is_completed = false →
        (progress_after (submit_answer sha256 s hunt_id clue_id player answer now)
            hunt_id player).map (fun p => p.is_completed) = some true ∧
        (progress_after (submit_answer sha256 s hunt_id clue_id player answer now)
            hunt_id player).map (fun p => p.completed_at) = some now)) := by
  have hunf : ∀ (k : Except HuntErrorCode CoreState), True := fun _ => trivial
  refine ⟨?_, ?_, ?_⟩
  · intro hdone
    unfold submit_answer
    rw [hh]
    simp only [hact, Bool.not_true, Bool.false_eq_true, if_false, hp, hc, hdone]
    exact ⟨rfl, rfl⟩
  · intro hdone hnh hne
    unfold submit_answer
    rw [hh]
    simp only [hact, Bool.not_true, Bool.false_eq_true, if_false, hp, hc, hdone,
      hnh]
    simp [hne]
    rfl
  · intro hdone hnh
    unfold submit_answer
    rw [hh]
    simp only [hact, Bool.not_true, Bool.false_eq_true, if_false, hp, hc, hdone,
      hnh]
    simp only [ne_eq, not_true_eq_false, if_false, reduceIte]
    set p1 := progress.complete_clue clue_id clue.points with hp1
    have hkh1 : p1.hunt_id = hunt_id := hkh
    have hkp1 : p1.player = player := hkp
    by_cases hall : check_all_required_clues_completed (s.clues hunt_id) p1 = true
    · by_cases hic : p1.is_completed = true
      · have hic' : progress.is_completed = true := hic
        simp only [hall, hic, Bool.not_true, Bool.and_false, if_false]
        unfold progress_after CoreState.save_player_progress
        simp [hp1, PlayerProgress.complete_clue, hic', hkh, hkp]
      · have hic0 : p1.is_completed = false := by
          cases h : p1.is_completed
          · rfl
          · exact absurd h hic
        simp only [hall, hic0, Bool.not_false, Bool.and_true, if_true]
        unfold progress_after CoreState.save_player_progress
        simp [hp1, PlayerProgress.complete_clue, hkh, hkp]
    · have hall0 : check_all_required_clues_completed (s.clues hunt_id) p1 = false := by
        cases h : check_all_required_clues_completed (s.clues hunt_id) p1
        · rfl
        · exact absurd h hall
      simp only [hall0, Bool.false_and, if_false]
      unfold progress_after CoreState.save_player_progress
      refine ⟨by simp [hp1, PlayerProgress.complete_clue, hkh, hkp],
              by simp [hp1, PlayerProgress.complete_clue, hkh, hkp], ?_⟩
      intro hall1 _
      exact Bool.noConfusion hall1

/-- C4 witness: on a concrete live hunt, player 2 submits the correct
answer (bytes [97]) for required clue 1 worth 10 points: the clue is
appended, the score becomes 10, and completion is marked at time 5. -/
theorem submit_answer_correct_witness :
    ((progress_after (submit_answer (fun l => l)
        { next_id := 2,
          hunts := fun i => if i = 1 then some
            { hunt_id := 1, creator := 7, title := [97], description := [98],
              status := HuntStatus.Active, created_at := 0, activated_at := 1,
              end_time := 0, reward_config := RewardConfig.new 0 false none 0,
              total_clues := 1, required_clues := 1 } else none,
          clues := fun h => if h = 1 then
            [{ clue_id := 1, question := [113], answer_hash := [97],
               points := 10, is_required := true }] else [],
          progress := fun h p => if h = 1 && p = 2 then
            some (PlayerProgress.new 2 1 0) else none,
          registered := fun h => if h = 1 then [2] else [],
          reward_manager := none }
        1 1 2 [97] 5) 1 2).map (fun p => p.completed_clues) = some [1]) ∧
    ((progress_after (submit_answer (fun l => l)
        { next_id := 2,
          hunts := fun i => if i = 1 then some
            { hunt_id := 1, creator := 7, title := [97], description := [98],
              status := HuntStatus.Active, created_at := 0, activated_at := 1,
              end_time := 0, reward_config := RewardConfig.new 0 false none 0,
              total_clues := 1, required_clues := 1 } else none,
          clues := fun h => if h = 1 then
            [{ clue_id := 1, question := [113], answer_hash := [97],
               points := 10, is_required := true }] else [],
          progress := fun h p => if h = 1 && p = 2 then
            some (PlayerProgress.new 2 1 0) else none,
          registered := fun h => if h = 1 then [2] else [],
          reward_manager := none }
        1 1 2 [97] 5) 1 2).map (fun p => p.total_score) = some 10) ∧
    ((progress_after (submit_answer (fun l => l)
        { next_id := 2,
          hunts := fun i => if i = 1 then some
            { hunt_id := 1, creator := 7, title := [97], description := [98],
              status := HuntStatus.Active, created_at := 0, activated_at := 1,
              end_time := 0, reward_config := RewardConfig.new 0 false none 0,
              total_clues := 1, required_clues := 1 } else none,
          clues := fun h => if h = 1 then
            [{ clue_id := 1, question := [113], answer_hash := [97],
               points := 10, is_required := true }] else [],
          progress := fun h p => if h = 1 && p = 2 then
            some (PlayerProgress.new 2 1 0) else none,
          registered := fun h => if h = 1 then [2] else [],
          reward_manager := none }
        1 1 2 [97] 5) 1 2).map (fun p => p.is_completed) = some true) ∧
    ((progress_after (submit_answer (fun l => l)
        { next_id := 2,
          hunts := fun i => if i = 1 then some
            { hunt_id := 1, creator := 7, title := [97], description := [98],
              status := HuntStatus.Active, created_at := 0, activated_at := 1,
              end_time := 0, reward_config := RewardConfig.new 0 false none 0,
              total_clues := 1, required_clues := 1 } else none,
          clues := fun h => if h = 1 then
            [{ clue_id := 1, question := [113], answer_hash := [97],
               points := 10, is_required := true }] else [],
          progress := fun h p => if h = 1 && p = 2 then
            some (PlayerProgress.new 2 1 0) else none,
          registered := fun h => if h = 1 then [2] else [],
          reward_manager := none }
        1 1 2 [97] 5) 1 2).map (fun p => p.completed_at) = some 5) := by
  have T := (submit_answer_correct (fun l => l)
    { next_id := 2,
      hunts := fun i => if i = 1 then some
        { hunt_id := 1, creator := 7, title := [97], description := [98],
          status := HuntStatus.Active, created_at := 0, activated_at := 1,
          end_time := 0, reward_config := RewardConfig.new 0 false none 0,
          total_clues := 1, required_clues := 1 } else none,
      clues := fun h => if h = 1 then
        [{ clue_id := 1, question := [113], answer_hash := [97],
           points := 10, is_required := true }] else [],
      progress := fun h p => if h = 1 && p = 2 then
        some (PlayerProgress.new 2 1 0) else none,
      registered := fun h => if h = 1 then [2] else [],
      reward_manager := none }
    1 1 2 [97] 5
    { hunt_id := 1, creator := 7, title := [97], description := [98],
      status := HuntStatus.Active, created_at := 0, activated_at := 1,
      end_time := 0, reward_config := RewardConfig.new 0 false none 0,
      total_clues := 1, required_clues := 1 }
    (PlayerProgress.new 2 1 0)
    { clue_id := 1, question := [113], answer_hash := [97],
      points := 10, is_required := true }
    [97] (by rfl) (by rfl) (by rfl) (by rfl) (by rfl) (by rfl)).2.2
    (by rfl) (by rfl)
  exact ⟨T.1, T.2.1, (T.2.2 (by rfl) (by rfl)).1, (T.2.2 (by rfl) (by rfl)).2⟩

/-! ## C3 and C10: the claim operation complete_hunt -/

/-- A claim by a player whose progress is completed but already marked
reward_claimed fails with RewardAlreadyClaimed. -/
theorem complete_hunt_already_claimed (ext : ExtCalls) (cs : CoreState)
    (rs : RMState) (hunt_id player : Nat) (hunt : Hunt)
    (progress : PlayerProgress)
    (hh : cs.hunts hunt_id = some hunt)
    (hp : cs.progress hunt_id player = some progress)
    (h1 : progress.is_completed = true)
    (h2 : progress.reward_claimed = true) :
    complete_hunt ext cs rs hunt_id player = .error .RewardAlreadyClaimed := by
  unfold complete_hunt
  simp only [hh, hp]
  rw [if_neg (fun hc => hc h1), if_pos h2]

/-- A successful claim implies every guard held, and the post-state sets
the player's reward_claimed flag and increments the hunt's claimed_count. -/
theorem complete_hunt_success_shape (ext : ExtCalls) (cs : CoreState)
    (rs : RMState) (hunt_id player : Nat) (hunt : Hunt)
    (progress : PlayerProgress)
    (hh : cs.hunts hunt_id = some hunt)
    (hp : cs.progress hunt_id player = some progress) :
    (complete_hunt ext cs rs hunt_id player).isOk = true →
    progress.is_completed = true ∧ progress.reward_claimed = false ∧
    hunt.reward_config.max_winners ≠ 0 ∧
    hunt.reward_config.claimed_count < hunt.reward_config.max_winners ∧
    ∃ rs', complete_hunt ext cs rs hunt_id player = .ok
      ((cs.save_player_progress { progress with reward_claimed := true }).save_hunt
        { hunt with reward_config :=
          { hunt.reward_config with
            claimed_count := hunt.reward_config.claimed_count + 1 } }, rs') := by
  intro hok
  unfold complete_hunt at hok
  simp only [hh, hp] at hok
  by_cases h1 : progress.is_completed = true
  · rw [if_neg (fun hc => hc h1)] at hok
    by_cases h2 : progress.reward_claimed = true
    · rw [if_pos h2] at hok
      simp [Except.isOk, Except.toBool] at hok
    · rw [if_neg h2] at hok
      by_cases h3 : hunt.reward_config.max_winners = 0
      · rw [if_pos h3] at hok
        simp [Except.isOk, Except.toBool] at hok
      · rw [if_neg h3] at hok
        by_cases h4 : hunt.has_rewards_available = true
        · rw [if_neg (fun hc => hc h4)] at hok
          cases hcall : complete_hunt_call ext cs rs hunt_id player hunt with
          | error e =>
            rw [hcall] at hok
            simp [Except.isOk, Except.toBool] at hok
          | ok rs' =>
            have h2' : progress.reward_claimed = false := by
              cases hb : progress.reward_claimed
              · rfl
              · exact absurd hb h2
            have h4' : hunt.reward_config.claimed_count <
                hunt.reward_config.max_winners := by
              unfold Hunt.has_rewards_available at h4
              exact of_decide_eq_true h4
            refine ⟨h1, h2', h3, h4', rs', ?_⟩
            unfold complete_hunt
            simp only [hh, hp]
            rw [if_neg (fun hc => hc h1), if_neg h2, if_neg h3,
              if_neg (fun hc => hc h4), hcall]
        · rw [if_pos h4] at hok
          simp [Except.isOk, Except.toBool] at hok
  · rw [if_pos h1] at hok
    simp [Except.isOk, Except.toBool] at hok

/-- C3: a claim succeeds only when the player's progress shows full
completion, the reward is unclaimed, max_winners > 0 and
claimed_count < max_winners; on success claimed_count is incremented and
reward_claimed set; a second claim by the same player then fails with
RewardAlreadyClaimed (so the pool is debited only once for that player);
and success preserves claimed_count <= max_winners. -/
theorem complete_hunt_claim_correct (ext ext2 : ExtCalls) (cs : CoreState)
    (rs : RMState) (hunt_id player : Nat) (hunt : Hunt)
    (progress : PlayerProgress)
    (hh : cs.hunts hunt_id = some hunt)
    (hp : cs.progress hunt_id player = some progress)
    (hid : hunt.hunt_id = hunt_id)
    (hkh : progress.hunt_id = hunt_id)
    (hkp : progress.player = player) :
    ((complete_hunt ext cs rs hunt_id player).isOk = true →
      progress.is_completed = true ∧ progress.reward_claimed = false ∧
      hunt.reward_config.max_winners ≠ 0 ∧
      hunt.reward_config.claimed_count < hunt.reward_config.max_winners) ∧
    ((complete_hunt ext cs rs hunt_id player).isOk = true →
      claimed_after (complete_hunt ext cs rs hunt_id player) hunt_id =
        some (hunt.reward_config.claimed_count + 1) ∧
      reward_claimed_after (complete_hunt ext cs rs hunt_id player)
        hunt_id player = some true) ∧
    ((complete_hunt ext cs rs hunt_id player).isOk = true →
      complete_hunt ext2
        (states_after (complete_hunt ext cs rs hunt_id player) (cs, rs)).1
        (states_after (complete_hunt ext cs rs hunt_id player) (cs, rs)).2
        hunt_id player = .error .RewardAlreadyClaimed) ∧
    ((complete_hunt ext cs rs hunt_id player).isOk = true →
      hunt.reward_config.claimed_count + 1 ≤ hunt.reward_config.max_winners) := by
  refine ⟨?_, ?_, ?_, ?_⟩
  · intro hok
    obtain ⟨h1, h2, h3, h4, _⟩ :=
      complete_hunt_success_shape ext cs rs hunt_id player hunt progress hh hp hok
    exact ⟨h1, h2, h3, h4⟩
  · intro hok
    obtain ⟨h1, h2, h3, h4, rs', heq⟩ :=
      complete_hunt_success_shape ext cs rs hunt_id player hunt progress hh hp hok
    rw [heq]
    unfold claimed_after reward_claimed_after CoreState.save_hunt
      CoreState.save_player_progress
    simp [hid, hkh, hkp]
  · intro hok
    obtain ⟨h1, h2, h3, h4, rs', heq⟩ :=
      complete_hunt_success_shape ext cs rs hunt_id player hunt progress hh hp hok
    rw [heq]
    refine complete_hunt_already_claimed ext2 _ _ hunt_id player
      { hunt with reward_config :=
        { hunt.reward_config with
          claimed_count := hunt.reward_config.claimed_count + 1 } }
      { progress with reward_claimed := true } ?_ ?_ h1 rfl
    · unfold states_after CoreState.save_hunt CoreState.save_player_progress
      simp [hid]
    · unfold states_after CoreState.save_hunt CoreState.save_player_progress
      simp [hkh, hkp]
  · intro hok
    obtain ⟨_, _, _, h4, _⟩ :=
      complete_hunt_success_shape ext cs rs hunt_id player hunt progress hh hp hok
    omega

/-- C3 witness: on the concrete completed, unclaimed progress of player 2
with three winner slots, the claim succeeds, increments claimed_count to
1, marks the reward claimed, and a second claim fails with
RewardAlreadyClaimed. -/
theorem complete_hunt_claim_correct_witness :
    (claimed_after (complete_hunt ⟨true, none⟩ csW rsW 1 2) 1 = some 1) ∧
    (reward_claimed_after (complete_hunt ⟨true, none⟩ csW rsW 1 2) 1 2 =
      some true) ∧
    (complete_hunt ⟨true, none⟩
      (states_after (complete_hunt ⟨true, none⟩ csW rsW 1 2) (csW, rsW)).1
      (states_after (complete_hunt ⟨true, none⟩ csW rsW 1 2) (csW, rsW)).2
      1 2 = .error .RewardAlreadyClaimed) := by
  have T := complete_hunt_claim_correct ⟨true, none⟩ ⟨true, none⟩ csW rsW 1 2
    huntW progW (by rfl) (by rfl) (by rfl) (by rfl) (by rfl)
  exact ⟨(T.2.1 (by rfl)).1, (T.2.1 (by rfl)).2, T.2.2.1 (by rfl)⟩

/-- C10: when no RewardManager contract is configured, a claim that meets
the preconditions (full completion, unclaimed, max_winners > 0, a free
winner slot) succeeds anyway: the reward-manager state is untouched (no
transfer, no pool debit, no mint), the player's reward_claimed flag is
set, and claimed_count is incremented. -/
theorem complete_hunt_without_reward_manager (ext : ExtCalls) (cs : CoreState)
    (rs : RMState) (hunt_id player : Nat) (hunt : Hunt)
    (progress : PlayerProgress)
    (hh : cs.hunts hunt_id = some hunt)
    (hp : cs.progress hunt_id player = some progress)
    (hid : hunt.hunt_id = hunt_id)
    (hkh : progress.hunt_id = hunt_id)
    (hkp : progress.player = player)
    (hrm : cs.reward_manager = none)
    (h1 : progress.is_completed = true)
    (h2 : progress.reward_claimed = false)
    (h3 : hunt.reward_config.max_winners ≠ 0)
    (h4 : hunt.reward_config.claimed_count < hunt.reward_config.max_winners) :
    (complete_hunt ext cs rs hunt_id player).isOk = true ∧
    (states_after (complete_hunt ext cs rs hunt_id player) (cs, rs)).2 = rs ∧
    claimed_after (complete_hunt ext cs rs hunt_id player) hunt_id =
      some (hunt.reward_config.claimed_count + 1) ∧
    reward_claimed_after (complete_hunt ext cs rs hunt_id player)
      hunt_id player = some true := by
  have hcall : complete_hunt_call ext cs rs hunt_id player hunt = .ok rs := by
    unfold complete_hunt_call
    rw [hrm]
  have hav : hunt.has_rewards_available = true := by
    unfold Hunt.has_rewards_available
    exact decide_eq_true h4
  have heq : complete_hunt ext cs rs hunt_id player = .ok
      ((cs.save_player_progress { progress with reward_claimed := true }).save_hunt
        { hunt with reward_config :=
          { hunt.reward_config with
            claimed_count := hunt.reward_config.claimed_count + 1 } }, rs) := by
    unfold complete_hunt
    simp only [hh, hp]
    rw [if_neg (fun hc => hc h1), if_neg (by simp [h2]), if_neg h3,
      if_neg (fun hc => hc hav), hcall]
  rw [heq]
  refine ⟨rfl, rfl, ?_, ?_⟩
  · unfold claimed_after CoreState.save_hunt
    simp [hid]
  · unfold reward_claimed_after CoreState.save_hunt CoreState.save_player_progress
    simp [hkh, hkp]

/-- C10 witness: the concrete state csW has no RewardManager configured;
player 2's claim succeeds, leaves the reward-manager state rsW untouched,
and updates claimed_count and reward_claimed. -/
theorem complete_hunt_without_reward_manager_witness :
    (complete_hunt ⟨true, none⟩ csW rsW 1 2).isOk = true ∧
    (states_after (complete_hunt ⟨true, none⟩ csW rsW 1 2) (csW, rsW)).2 = rsW ∧
    claimed_after (complete_hunt ⟨true, none⟩ csW rsW 1 2) 1 = some 1 ∧
    reward_claimed_after (complete_hunt ⟨true, none⟩ csW rsW 1 2) 1 2 =
      some true :=
  complete_hunt_without_reward_manager ⟨true, none⟩ csW rsW 1 2 huntW progW
    (by rfl) (by rfl) (by rfl) (by rfl) (by rfl) (by rfl) (by rfl) (by rfl)
    (by decide) (by decide)

/-! ## C6: leaderboard top-K -/

/-- `lb_better` is irreflexive. -/
theorem lb_better_irrefl (a : LBTup) : lb_better a a = false := by
  simp [lb_better]

/-- `lb_better` is transitive. -/
theorem lb_better_trans {a b c : LBTup} (h1 : lb_better a b = true)
    (h2 : lb_better b c = true) : lb_better a c = true := by
  simp only [lb_better, Bool.or_eq_true, Bool.and_eq_true, decide_eq_true_eq,
    beq_iff_eq] at h1 h2 ⊢
  omega

/-- `lb_better` is negatively transitive (it is the strict part of a total
preorder). -/
theorem lb_better_neg_trans {a b c : LBTup} (h1 : lb_better a b = false)
    (h2 : lb_better b c = false) : lb_better a c = false := by
  simp only [lb_better, Bool.or_eq_false_iff, Bool.and_eq_false_iff,
    decide_eq_false_iff_not, beq_eq_false_iff_ne, ne_eq, not_lt,
    Bool.or_eq_true, Bool.and_eq_true, decide_eq_true_eq, beq_iff_eq] at h1 h2 ⊢
  omega

/-- A scan whose running best is already set never returns `none`. -/
theorem leaderboard_scan_isSome (entries : List LBTup) (sel : List Nat) :
    ∀ (l : List Nat) (b : Nat),
      leaderboard_scan entries sel l (some b) ≠ none := by
  intro l
  induction l with
  | nil => intro b h; exact Option.noConfusion h
  | cons i rest ih =>
    intro b
    unfold leaderboard_scan
    by_cases hc : sel.contains i = true
    · rw [if_pos hc]
      exact ih b
    · rw [if_neg hc]
      by_cases hb : lb_better (entries.getD i default) (entries.getD b default) = true
      · rw [if_pos hb]
        exact ih i
      · rw [if_neg hb]
        exact ih b

/-- The scan returns `none` exactly when it started with no best and every
candidate was already selected. -/
theorem leaderboard_scan_eq_none (entries : List LBTup) (sel : List Nat) :
    ∀ (l : List Nat) (best : Option Nat),
      leaderboard_scan entries sel l best = none ↔
        best = none ∧ ∀ i ∈ l, sel.contains i = true := by
  intro l
  induction l with
  | nil =>
    intro best
    unfold leaderboard_scan
    simp
  | cons i rest ih =>
    intro best
    cases best with
    | none =>
      unfold leaderboard_scan
      by_cases hc : sel.contains i = true
      · rw [if_pos hc, ih none]
        have hmem : i ∈ sel := by simpa using hc
        simp [List.forall_mem_cons, hc, hmem]
      · rw [if_neg hc]
        constructor
        · intro h
          exact absurd h (leaderboard_scan_isSome entries sel rest i)
        · intro ⟨_, hall⟩
          exact absurd (hall i (List.mem_cons_self i rest)) hc
    | some b =>
      unfold leaderboard_scan
      constructor
      · intro h
        by_cases hc : sel.contains i = true
        · rw [if_pos hc] at h
          exact absurd h (leaderboard_scan_isSome entries sel rest b)
        · rw [if_neg hc] at h
          by_cases hb : lb_better (entries.getD i default)
              (entries.getD b default) = true
          · rw [if_pos hb] at h
            exact absurd h (leaderboard_scan_isSome entries sel rest i)
          · rw [if_neg hb] at h
            exact absurd h (leaderboard_scan_isSome entries sel rest b)
      · intro ⟨hbad, _⟩
        exact Option.noConfusion hbad

/-- Soundness of the scan: the returned index is in bounds and
unselected, no unselected candidate from the scanned list beats it, and
it is at least as good as the starting best. -/
theorem leaderboard_scan_spec (entries : List LBTup) (sel : List Nat) :
    ∀ (l : List Nat) (best : Option Nat) (res : Nat),
      leaderboard_scan entries sel l best = some res →
      (∀ b, best = some b → b < entries.length ∧ sel.contains b = false) →
      (∀ i ∈ l, i < entries.length) →
      (res < entries.length ∧ sel.contains res = false) ∧
      (∀ j ∈ l, sel.contains j = false →
        lb_better (entries.getD j default) (entries.getD res default) = false) ∧
      (∀ b, best = some b →
        lb_better (entries.getD b default) (entries.getD res default) = false) := by
  intro l
  induction l with
  | nil =>
    intro best res hscan hbest _
    unfold leaderboard_scan at hscan
    subst hscan
    refine ⟨hbest res rfl, ?_, ?_⟩
    · intro j hj
      exact absurd hj (List.not_mem_nil j)
    · intro b hb
      cases hb
      exact lb_better_irrefl _
  | cons i rest ih =>
    intro best res hscan hbest hl
    have hil : i < entries.length := hl i (List.mem_cons_self i rest)
    have hrestl : ∀ j ∈ rest, j < entries.length :=
      fun j hj => hl j (List.mem_cons_of_mem i hj)
    cases best with
    | none =>
      unfold leaderboard_scan at hscan
      by_cases hc : sel.contains i = true
      · rw [if_pos hc] at hscan
        obtain ⟨hres, hmax, _⟩ := ih none res hscan
          (fun b hb => Option.noConfusion hb) hrestl
        refine ⟨hres, ?_, fun b hb => Option.noConfusion hb⟩
        intro j hj hjc
        rcases List.mem_cons.mp hj with hji | hjr
        · subst hji
          rw [hc] at hjc
          exact Bool.noConfusion hjc
        · exact hmax j hjr hjc
      · rw [if_neg hc] at hscan
        have hcf : sel.contains i = false := by
          cases h : sel.contains i
          · rfl
          · exact absurd h hc
        obtain ⟨hres, hmax, hbet⟩ := ih (some i) res hscan
          (fun b hb => by
            have hbi : i = b := Option.some.inj hb
            subst hbi
            exact ⟨hil, hcf⟩) hrestl
        refine ⟨hres, ?_, fun b hb => Option.noConfusion hb⟩
        intro j hj hjc
        rcases List.mem_cons.mp hj with hji | hjr
        · subst hji
          exact hbet j rfl
        · exact hmax j hjr hjc
    | some bi =>
      have hbi := hbest bi rfl
      unfold leaderboard_scan at hscan
      by_cases hc : sel.contains i = true
      · rw [if_pos hc] at hscan
        obtain ⟨hres, hmax, hbet⟩ := ih (some bi) res hscan
          (fun b hb => by
            have hbb : bi = b := Option.some.inj hb
            subst hbb
            exact hbi) hrestl
        refine ⟨hres, ?_, hbet⟩
        intro j hj hjc
        rcases List.mem_cons.mp hj with hji | hjr
        · subst hji
          rw [hc] at hjc
          exact Bool.noConfusion hjc
        · exact hmax j hjr hjc
      · rw [if_neg hc] at hscan
        have hcf : sel.contains i = false := by
          cases h : sel.contains i
          · rfl
          · exact absurd h hc
        by_cases hb : lb_better (entries.getD i default)
            (entries.getD bi default) = true
        · rw [if_pos hb] at hscan
          obtain ⟨hres, hmax, hbet⟩ := ih (some i) res hscan
            (fun b hbb => by
              have hbb2 : i = b := Option.some.inj hbb
              subst hbb2
              exact ⟨hil, hcf⟩) hrestl
          have hbetI : lb_better (entries.getD i default)
              (entries.getD res default) = false := hbet i rfl
          refine ⟨hres, ?_, ?_⟩
          · intro j hj hjc
            rcases List.mem_cons.mp hj with hji | hjr
            · subst hji
              exact hbetI
            · exact hmax j hjr hjc
          · intro b hbb
            have hbb2 : bi = b := Option.some.inj hbb
            subst hbb2
            cases hbb3 : lb_better (entries.getD bi default)
                (entries.getD res default)
            · rfl
            · exact absurd (lb_better_trans hb hbb3)
                (fun h => by rw [h] at hbetI; exact Bool.noConfusion hbetI)
        · rw [if_neg hb] at hscan
          have hbf : lb_better (entries.getD i default)
              (entries.getD bi default) = false := by
            cases h : lb_better (entries.getD i default) (entries.getD bi default)
            · rfl
            · exact absurd h hb
          obtain ⟨hres, hmax, hbet⟩ := ih (some bi) res hscan
            (fun b hbb => by
              have hbb2 : bi = b := Option.some.inj hbb
              subst hbb2
              exact hbi) hrestl
          have hbetBi : lb_better (entries.getD bi default)
              (entries.getD res default) = false := hbet bi rfl
          refine ⟨hres, ?_, hbet⟩
          intro j hj hjc
          rcases List.mem_cons.mp hj with hji | hjr
          · subst hji
            exact lb_better_neg_trans hbf hbetBi
          · exact hmax j hjr hjc

/-- Soundness of leaderboard_best_index: the pick is in bounds and
unselected, and no unselected index beats it. -/
theorem leaderboard_best_index_spec (entries : List LBTup) (sel : List Nat)
    (res : Nat) (h : leaderboard_best_index entries sel = some res) :
    (res < entries.length ∧ sel.contains res = false) ∧
    (∀ j, j < entries.length → sel.contains j = false →
      lb_better (entries.getD j default) (entries.getD res default) = false) := by
  unfold leaderboard_best_index at h
  obtain ⟨hres, hmax, _⟩ := leaderboard_scan_spec entries sel
    (List.range entries.length) none res h
    (fun b hb => Option.noConfusion hb)
    (fun i hi => List.mem_range.mp hi)
  exact ⟨hres, fun j hj hjc => hmax j (List.mem_range.mpr hj) hjc⟩

/-- leaderboard_best_index returns `none` exactly when every index is
already selected. -/
theorem leaderboard_best_index_eq_none (entries : List LBTup) (sel : List Nat) :
    leaderboard_best_index entries sel = none ↔
      ∀ i, i < entries.length → sel.contains i = true := by
  unfold leaderboard_best_index
  rw [leaderboard_scan_eq_none]
  simp [List.mem_range]

/-- Length of the selection: one entry per round until the limit or the
unselected entries run out. -/
theorem leaderboard_select_length (entries : List LBTup) :
    ∀ (fuel rank : Nat) (sel : List Nat), sel.Nodup →
      (∀ x ∈ sel, x < entries.length) →
      (leaderboard_select entries fuel rank sel).length =
        min fuel (entries.length - sel.length) := by
  intro fuel
  induction fuel with
  | zero =>
    intro rank sel _ _
    simp [leaderboard_select]
  | succ fuel ih =>
    intro rank sel hnd hbnd
    unfold leaderboard_select
    cases hbi : leaderboard_best_index entries sel with
    | none =>
      have hall := (leaderboard_best_index_eq_none entries sel).mp hbi
      have hsub : List.range entries.length ⊆ sel := by
        intro x hx
        have := hall x (List.mem_range.mp hx)
        simpa using this
      have hlen : entries.length ≤ sel.length := by
        have hsp := (List.nodup_range entries.length).subperm hsub
        simpa using hsp.length_le
      simp
      omega
    | some bi =>
      have hspec := leaderboard_best_index_spec entries sel bi hbi
      have hbimem : bi ∉ sel := by
        have := hspec.1.2
        simpa using this
      have hnd2 : (sel ++ [bi]).Nodup := by
        simp [List.nodup_append, hnd, hbimem]
      have hbnd2 : ∀ x ∈ sel ++ [bi], x < entries.length := by
        intro x hx
        rcases List.mem_append.mp hx with hx | hx
        · exact hbnd x hx
        · simp at hx
          subst hx
          exact hspec.1.1
      have hlt : sel.length < entries.length := by
        have hsub : (sel ++ [bi]) ⊆ List.range entries.length := by
          intro x hx
          exact List.mem_range.mpr (hbnd2 x hx)
        have hsp := hnd2.subperm hsub
        have hle := hsp.length_le
        simp at hle
        omega
      rw [List.length_cons, ih (rank + 1) (sel ++ [bi]) hnd2 hbnd2]
      have hlen2 : (sel ++ [bi]).length = sel.length + 1 := by simp
      rw [hlen2]
      omega

/-- Every returned entry carries its 1-based rank in selection order. -/
theorem leaderboard_select_ranks (entries : List LBTup) :
    ∀ (fuel rank : Nat) (sel : List Nat),
      (leaderboard_select entries fuel rank sel).map (fun e => e.rank) =
        List.range' rank (leaderboard_select entries fuel rank sel).length := by
  intro fuel
  induction fuel with
  | zero =>
    intro rank sel
    simp [leaderboard_select]
  | succ fuel ih =>
    intro rank sel
    unfold leaderboard_select
    cases hbi : leaderboard_best_index entries sel with
    | none => simp
    | some bi =>
      simp only [List.map_cons, List.length_cons]
      rw [ih (rank + 1) (sel ++ [bi]), List.range'_succ]

/-- Consecutive selected entries satisfy the spec's ranking order:
descending score, ties broken by ascending completion-time key. -/
theorem leaderboard_select_chain (entries : List LBTup) :
    ∀ (fuel rank : Nat) (sel : List Nat),
      (∀ x ∈ sel, x < entries.length) →
      List.Chain' lb_order (leaderboard_select entries fuel rank sel) := by
  intro fuel
  induction fuel with
  | zero =>
    intro rank sel _
    simp [leaderboard_select]
  | succ fuel ih =>
    intro rank sel hbnd
    unfold leaderboard_select
    cases hbi : leaderboard_best_index entries sel with
    | none => simp
    | some bi =>
      have hspec := leaderboard_best_index_spec entries sel bi hbi
      have hbnd2 : ∀ x ∈ sel ++ [bi], x < entries.length := by
        intro x hx
        rcases List.mem_append.mp hx with hx | hx
        · exact hbnd x hx
        · simp at hx
          subst hx
          exact hspec.1.1
      rw [List.chain'_cons']
      refine ⟨?_, ih (rank + 1) (sel ++ [bi]) hbnd2⟩
      intro y hy
      cases fuel with
      | zero => simp [leaderboard_select] at hy
      | succ fuel2 =>
        unfold leaderboard_select at hy
        cases hbj : leaderboard_best_index entries (sel ++ [bi]) with
        | none =>
          rw [hbj] at hy
          simp at hy
        | some bj =>
          rw [hbj] at hy
          simp only [List.head?_cons, Option.mem_def, Option.some.injEq] at hy
          subst hy
          have hspec2 := leaderboard_best_index_spec entries (sel ++ [bi]) bj hbj
          have hbjc : sel.contains bj = false := by
            have h2 := hspec2.1.2
            have hnm : bj ∉ sel ++ [bi] := by simpa using h2
            have : bj ∉ sel := fun hmem =>
              hnm (List.mem_append.mpr (Or.inl hmem))
            simpa using this
          have hbet := hspec.2 bj hspec2.1.1 hbjc
          simp only [lb_order, lb_better, Bool.or_eq_false_iff,
            Bool.and_eq_false_iff, decide_eq_false_iff_not, not_lt,
            beq_eq_false_iff_ne, ne_eq, Bool.or_eq_true, Bool.and_eq_true,
            decide_eq_true_eq, beq_iff_eq] at hbet ⊢
          omega

/-- C6: for an existing hunt, get_hunt_leaderboard returns the pure top-K
selection over the hunt's player-progress tuples; that selection has
min(K, 20, number of players) entries, each entry carries its 1-based
rank in selection order, and consecutive entries are ordered by
descending score with ties broken by ascending completion-time key (a
zero / unset completion time sorting as worst). -/
theorem get_hunt_leaderboard_topk (s : CoreState) (hunt_id limit : Nat)
    (hunt : Hunt) (hh : s.hunts hunt_id = some hunt) :
    get_hunt_leaderboard s hunt_id limit =
      .ok (leaderboard_topk (lb_entries s hunt_id) limit) ∧
    (leaderboard_topk (lb_entries s hunt_id) limit).length =
      min (min limit 20) (s.get_hunt_players hunt_id).length ∧
    (leaderboard_topk (lb_entries s hunt_id) limit).map (fun e => e.rank) =
      List.range' 1 (leaderboard_topk (lb_entries s hunt_id) limit).length ∧
    List.Chain' lb_order (leaderboard_topk (lb_entries s hunt_id) limit) := by
  refine ⟨?_, ?_, ?_, ?_⟩
  · unfold get_hunt_leaderboard
    simp only [hh]
  · unfold leaderboard_topk
    rw [leaderboard_select_length (lb_entries s hunt_id) (min limit 20) 1 []
      List.nodup_nil (fun x hx => absurd hx (List.not_mem_nil x))]
    unfold lb_entries
    simp
  · exact leaderboard_select_ranks (lb_entries s hunt_id) (min limit 20) 1 []
  · exact leaderboard_select_chain (lb_entries s hunt_id) (min limit 20) 1 []
      (fun x hx => absurd hx (List.not_mem_nil x))

/-- C6 witness: three players with scores [15, 15, 10] and completion
times 50, 40, 60; requesting K = 5 yields exactly three entries ranked
(15 at the earlier time 40), (15 at time 50), then (10). -/
theorem get_hunt_leaderboard_topk_witness :
    leaderboard_topk (lb_entries csL 1) 5 =
      [{ rank := 1, player := 2, score := 15, completed_at := 40,
         is_completed := true },
       { rank := 2, player := 1, score := 15, completed_at := 50,
         is_completed := true },
       { rank := 3, player := 3, score := 10, completed_at := 60,
         is_completed := true }] ∧
    get_hunt_leaderboard csL 1 5 =
      .ok (leaderboard_topk (lb_entries csL 1) 5) ∧
    (leaderboard_topk (lb_entries csL 1) 5).length =
      min (min 5 20) (csL.get_hunt_players 1).length ∧
    (leaderboard_topk (lb_entries csL 1) 5).map (fun e => e.rank) =
      List.range' 1 (leaderboard_topk (lb_entries csL 1) 5).length ∧
    List.Chain' lb_order (leaderboard_topk (lb_entries csL 1) 5) := by
  have T := get_hunt_leaderboard_topk csL 1 5 huntW (by rfl)
  exact ⟨by decide, T.1, T.2.1, T.2.2.1, T.2.2.2⟩
